import Mathlib

/-! # vault-ethereum: transaction builders, signing handlers and chain policy

A shallow embedding of `tx.go`, `path_accounts.go` and `path_chains.go`.

Conventions of the embedding

* Go `string` is `String`; `[]byte` is `Bytes` (a list of byte values).
* `*big.Int` is `Option Int` where the pointer may be nil, `Int` otherwise.
* `int64` is an `Int`, `uint64` a `Nat`; the conversion `uint64(x)` is
  written out as a reduction modulo `2^64`.
* A Go function returning `(T, error)` is an `Except String T`; a request
  handler, which can also stop on a nil dereference, returns an `Outcome`.
* Functions of third-party libraries (go-ethereum, the HD wallet, BIP-39) and
  of the repository's own `util` package are not part of the embedded
  sources.  Those that are pure text or number processing are modelled
  below; the cryptographic ones are fields of the structure `Lib`.
-/

namespace VaultEthereum

/-! ## Basic data -/

/-- Byte strings, one `Nat` below 256 per byte. -/
abbrev Bytes := List Nat

/-- The type `common.Address`: twenty bytes. -/
structure Address where
  bytes : Bytes
deriving DecidableEq, Repr

/-- The record `AccountJSON` of `path_accounts.go`. -/
structure AccountJSON where
  Index : Int
  Mnemonic : String
deriving DecidableEq, Repr

/-- The record `ChainJSON` of `path_chains.go`. -/
structure ChainJSON where
  BoundCIDRList : List String
  Inclusions : List String
  Exclusions : List String
  RPC : String
  ChainID : String
deriving DecidableEq, Repr

/-! ## Chain policy: `ValidAddress` -/

/-- Modelled from the spec: `util.Contains` of the repository's `util` package,
which is not among the embedded sources.  The spec reads the two calls as
`destination ∈ exclusionList` and `destination ∉ inclusionList`; the model is
the linear scan that returns true at the first equal element. -/
def Contains : List String → String → Bool
  | [], _ => false
  | value :: rest, searchString =>
      if value = searchString then true else Contains rest searchString

/-- Error text of the exclusion check of `ValidAddress`. -/
def excludedError (hex : String) : String :=
  hex ++ " is excludeded by this mount"

/-- Error text of the inclusion check of `ValidAddress`. -/
def notIncludedError (hex : String) : String :=
  hex ++ " is not in the set of inclusions of this mount"

/-- The method `(*ChainJSON).ValidAddress`.  `Hex` is `common.Address.Hex`
(the checksummed hexadecimal text of the address); the result is the Go
`error`, `none` for nil. -/
def ValidAddress (Hex : Address → String) (config : ChainJSON) (toAddress : Address) :
    Option String :=
  if Contains config.Exclusions (Hex toAddress) then
    some (excludedError (Hex toAddress))
  else if config.Inclusions.length > 0 && !Contains config.Inclusions (Hex toAddress) then
    some (notIncludedError (Hex toAddress))
  else
    none

/-- The decision list of the specification, section 4.4, steps 1, 2 and 4,
written from its words: membership in the exclusion list rejects first, then a
non-empty inclusion list without the destination rejects, otherwise allow. -/
def policyDecision (exclusionList inclusionList : List String) (destination : String) :
    Option String :=
  if destination ∈ exclusionList then some (excludedError destination)
  else if inclusionList ≠ [] ∧ destination ∉ inclusionList then
    some (notIncludedError destination)
  else none

/-! ## Number parsing of the Go standard library -/

/-- The value of a decimal digit, `none` for any other character. -/
def digitValue (c : Char) : Option Nat :=
  if 48 ≤ c.toNat ∧ c.toNat ≤ 57 then some (c.toNat - 48) else none

/-- Reads a run of decimal digits left to right; `none` at the first
character that is not a digit. -/
def parseDigits : List Char → Nat → Option Nat
  | [], acc => some acc
  | c :: cs, acc =>
      match digitValue c with
      | some d => parseDigits cs (acc * 10 + d)
      | none => none

/-- The call `new(big.Int).SetString(s, 10)`: an optional sign followed by at
least one decimal digit, the whole string consumed.  `none` is the nil
pointer returned on failure. -/
def SetString (s : String) : Option Int :=
  match s.toList with
  | [] => none
  | c :: cs =>
      if c = '-' then
        (if cs = [] then none else (parseDigits cs 0).map (fun n => -(n : Int)))
      else if c = '+' then
        (if cs = [] then none else (parseDigits cs 0).map (fun n => (n : Int)))
      else (parseDigits (c :: cs) 0).map (fun n => (n : Int))

/-- The largest `uint64`. -/
def maxUint64 : Nat := 18446744073709551615

/-- The digit loop of `strconv.ParseUint(s, 10, 64)`: the value and whether an
error was met.  A character that is not a digit stops with value 0, an
overflow stops with the largest `uint64`. -/
def parseUintLoop : List Char → Nat → Nat × Bool
  | [], n => (n, false)
  | c :: cs, n =>
      match digitValue c with
      | none => (0, true)
      | some d =>
          if n ≥ maxUint64 / 10 + 1 then (maxUint64, true)
          else if n * 10 + d > maxUint64 then (maxUint64, true)
          else parseUintLoop cs (n * 10 + d)

/-- The call `strconv.ParseUint(s, 10, 64)`: the value returned and whether
the error is non-nil.  The empty string is a syntax error with value 0. -/
def ParseUint (s : String) : Nat × Bool :=
  match s.toList with
  | [] => (0, true)
  | cs => parseUintLoop cs 0

/-- The conversion `uint64(x)` of an `int64`. -/
def uint64OfInt64 (x : Int) : Nat := (x % 18446744073709551616).toNat

/-! ## Field data of a request -/

/-- The `framework.FieldData` of a request, after the framework has validated
the supplied fields against the schema of the path: one entry per schema
field, `none` when the request did not supply the field (the key is absent
from `Raw`), `some v` with the decoded value when it did.
The field `to` is written `to_`.  `data.GetOk("k")` reports `ok` exactly on
`some`; `data.Get("k")` falls back to
the schema default, or to the zero value when the schema declares none. -/
structure FieldData where
  name : Option String
  address : Option String
  chain_id : Option Int
  to_ : Option String
  data : Option String
  value : Option String
  nonce : Option Int
  gas_limit : Option String
  gas_price : Option String
  max_priority_fee_per_gas : Option String
  max_fee_per_gas : Option String
  message : Option String
  mnemonic : Option String
  index : Option Int
deriving DecidableEq, Repr

/-- The second result of `data.GetOk(k)`: whether the field was supplied. -/
def GetOk {α : Type} (raw : Option α) : Bool := raw.isSome

/-- The result of `data.Get(k)` for a field whose schema default (or zero value) is
`dflt`. -/
def Get {α : Type} (raw : Option α) (dflt : α) : α :=
  match raw with
  | some v => v
  | none => dflt

/-- A request that supplies no field at all. -/
def FieldData.empty : FieldData :=
  { name := none, address := none, chain_id := none, to_ := none, data := none,
    value := none, nonce := none, gas_limit := none, gas_price := none,
    max_priority_fee_per_gas := none, max_fee_per_gas := none, message := none,
    mnemonic := none, index := none }

/-! ## Transactions of go-ethereum `core/types` -/

/-- The struct `types.LegacyTx` as a literal may be written: the `*big.Int` and
address pointers may be nil. -/
structure LegacyTx where
  Nonce : Nat
  GasPrice : Option Int
  Gas : Nat
  To : Option Address
  Value : Option Int
  Data : Bytes
  V : Option Int
  R : Option Int
  S : Option Int
deriving DecidableEq, Repr

/-- The struct `types.DynamicFeeTx` as a literal may be written. -/
structure DynamicFeeTx where
  ChainID : Option Int
  Nonce : Nat
  GasTipCap : Option Int
  GasFeeCap : Option Int
  Gas : Nat
  To : Option Address
  Value : Option Int
  Data : Bytes
  V : Option Int
  R : Option Int
  S : Option Int
deriving DecidableEq, Repr

/-- The interface `types.TxData`, restricted to the two kinds the builders use. -/
inductive TxData where
  | legacy (tx : LegacyTx)
  | dynamicFee (tx : DynamicFeeTx)
deriving DecidableEq, Repr

/-- The data a `types.Transaction` holds of a legacy transaction: the copy made
by `(*LegacyTx).copy`, in which every `*big.Int` has been set.  A transaction is
only ever made by `NewTx`, so its accessors never meet a nil number. -/
structure LegacyTxInner where
  Nonce : Nat
  GasPrice : Int
  Gas : Nat
  To : Option Address
  Value : Int
  Data : Bytes
  V : Int
  R : Int
  S : Int
deriving DecidableEq, Repr

/-- The data a `types.Transaction` holds of a dynamic-fee transaction: the copy
made by `(*DynamicFeeTx).copy`. -/
structure DynamicFeeTxInner where
  ChainID : Int
  Nonce : Nat
  GasTipCap : Int
  GasFeeCap : Int
  Gas : Nat
  To : Option Address
  Value : Int
  Data : Bytes
  V : Int
  R : Int
  S : Int
deriving DecidableEq, Repr

/-- The copied data of a transaction, of either kind. -/
inductive TxInner where
  | legacy (tx : LegacyTxInner)
  | dynamicFee (tx : DynamicFeeTxInner)
deriving DecidableEq, Repr

/-- How the `copy` methods treat a `*big.Int` field: a fresh zero
(`new(big.Int)`), overwritten with the source number when the source pointer is
not nil. -/
def copyBig (x : Option Int) : Int :=
  match x with
  | some v => v
  | none => 0

/-- The method `(*LegacyTx).copy`. -/
def LegacyTx.copy (tx : LegacyTx) : LegacyTxInner :=
  { Nonce := tx.Nonce, To := tx.To, Data := tx.Data, Gas := tx.Gas,
    Value := copyBig tx.Value, GasPrice := copyBig tx.GasPrice,
    V := copyBig tx.V, R := copyBig tx.R, S := copyBig tx.S }

/-- The method `(*DynamicFeeTx).copy`. -/
def DynamicFeeTx.copy (tx : DynamicFeeTx) : DynamicFeeTxInner :=
  { Nonce := tx.Nonce, To := tx.To, Data := tx.Data, Gas := tx.Gas,
    Value := copyBig tx.Value, ChainID := copyBig tx.ChainID,
    GasTipCap := copyBig tx.GasTipCap, GasFeeCap := copyBig tx.GasFeeCap,
    V := copyBig tx.V, R := copyBig tx.R, S := copyBig tx.S }

/-- The type `types.Transaction`: the copied inner data. -/
structure Transaction where
  inner : TxInner
deriving DecidableEq, Repr

/-- The constructor `types.NewTx`: stores a deep copy of the given data. -/
def NewTx (inner : TxData) : Transaction :=
  match inner with
  | .legacy tx => { inner := .legacy tx.copy }
  | .dynamicFee tx => { inner := .dynamicFee tx.copy }

/-- The function `deriveChainId` of `core/types`, used by the legacy kind. -/
def deriveChainId (v : Int) : Int :=
  if v.natAbs < 18446744073709551616 then
    (if v.natAbs = 27 ∨ v.natAbs = 28 then 0
     else (((v.natAbs + 18446744073709551616 - 35) % 18446744073709551616) / 2 : Nat))
  else (v - 35) / 2

/-- The accessor `tx.ChainId()`. -/
def Transaction.ChainId (tx : Transaction) : Int :=
  match tx.inner with
  | .legacy t => deriveChainId t.V
  | .dynamicFee t => t.ChainID

/-- The accessor `tx.Gas()`. -/
def Transaction.Gas (tx : Transaction) : Nat :=
  match tx.inner with
  | .legacy t => t.Gas
  | .dynamicFee t => t.Gas

/-- The accessor `tx.Nonce()`. -/
def Transaction.Nonce (tx : Transaction) : Nat :=
  match tx.inner with
  | .legacy t => t.Nonce
  | .dynamicFee t => t.Nonce

/-- The accessor `tx.GasPrice()`; for the dynamic-fee kind it is the fee cap. -/
def Transaction.GasPrice (tx : Transaction) : Int :=
  match tx.inner with
  | .legacy t => t.GasPrice
  | .dynamicFee t => t.GasFeeCap

/-- The accessor `tx.GasTipCap()`; for the legacy kind it is the gas price. -/
def Transaction.GasTipCap (tx : Transaction) : Int :=
  match tx.inner with
  | .legacy t => t.GasPrice
  | .dynamicFee t => t.GasTipCap

/-- The accessor `tx.GasFeeCap()`; for the legacy kind it is the gas price. -/
def Transaction.GasFeeCap (tx : Transaction) : Int :=
  match tx.inner with
  | .legacy t => t.GasPrice
  | .dynamicFee t => t.GasFeeCap

/-- The accessor `tx.Value()`. -/
def Transaction.Value (tx : Transaction) : Int :=
  match tx.inner with
  | .legacy t => t.Value
  | .dynamicFee t => t.Value

/-- The accessor `tx.To()`. -/
def Transaction.To (tx : Transaction) : Option Address :=
  match tx.inner with
  | .legacy t => t.To
  | .dynamicFee t => t.To

/-- The accessor `tx.Data()`. -/
def Transaction.Data (tx : Transaction) : Bytes :=
  match tx.inner with
  | .legacy t => t.Data
  | .dynamicFee t => t.Data

/-! ## Library interface -/

/-- The type `hdwallet.Wallet`: the wallet opened from a mnemonic. -/
structure Wallet where
  mnemonic : String
  seed : Bytes
deriving DecidableEq, Repr

/-- The type `accounts.Account`. -/
structure Account where
  Address : Address
  URL : String
deriving DecidableEq, Repr

/-- The functions the embedded sources call in other packages and whose
results the development does not compute: the repository's `util` package
(absent from the embedded sources), go-ethereum `common` and `crypto`, the
HD wallet and the origin check of the Vault SDK.  Every general theorem
below holds for every value of this structure. -/
structure Lib where
  /-- The function `util.Decode`: the bytes a `data` text stands for. -/
  Decode : String → Except String Bytes
  /-- The function `util.ValidNumber`: `none` is the nil result. -/
  ValidNumber : String → Option Int
  /-- The function `common.HexToAddress`. -/
  HexToAddress : String → Address
  /-- The method `common.Address.Hex`. -/
  Hex : Address → String
  /-- The function `hdwallet.NewFromMnemonic`. -/
  NewFromMnemonic : String → Except String Wallet
  /-- The function `accounts.ParseDerivationPath`. -/
  ParseDerivationPath : String → Except String (List Nat)
  /-- The method `(*Wallet).Derive` with pinning. -/
  Derive : Wallet → List Nat → Except String Account
  /-- The method `(*Wallet).SignTx`. -/
  SignTx : Wallet → Account → Transaction → Int → Except String Transaction
  /-- The method `(*Wallet).SignTxEIP155`. -/
  SignTxEIP155 : Wallet → Account → Transaction → Int → Except String Transaction
  /-- The method `(*Wallet).SignHash`. -/
  SignHash : Wallet → Account → Bytes → Except String Bytes
  /-- The hash function Keccak-256. -/
  Keccak256 : Bytes → Bytes
  /-- The bytes `(*Transaction).EncodeRLP` writes. -/
  EncodeRLP : Transaction → Bytes
  /-- The function `cidrutil.IPBelongsToCIDRBlocksSlice`. -/
  IPBelongsToCIDRBlocksSlice : String → List String → Except String Bool

/-! ## The transaction builders of `tx.go` -/

/-- The function `getEIP1559TransactionData`. -/
def getEIP1559TransactionData (lib : Lib) (data : FieldData) : Except String Transaction := do
  let chainId : Int := 0
  let dataOrFile := Get data.data ""
  let txDataToSign ←
    if dataOrFile.length > 0 then lib.Decode dataOrFile else pure []
  let value ←
    if GetOk data.value then
      match lib.ValidNumber (Get data.value "") with
      | none => throw "invalid value"
      | some v => pure (some v)
    else pure (lib.ValidNumber "0")
  let nonce ←
    if GetOk data.nonce then pure (uint64OfInt64 (Get data.nonce 0))
    else throw "Nonce not specified"
  let gasLimit ←
    if GetOk data.gas_limit then pure (ParseUint (Get data.gas_limit "21000")).1
    else throw "Gas limit not specified"
  let tip ←
    if GetOk data.max_priority_fee_per_gas then
      pure (SetString (Get data.max_priority_fee_per_gas "0"))
    else throw "Gas limit not specified"
  let feeCap ←
    if GetOk data.max_fee_per_gas then pure (SetString (Get data.max_fee_per_gas "0"))
    else throw "Gas limit not specified"
  let to_ ←
    if GetOk data.to_ then pure (lib.HexToAddress (Get data.to_ ""))
    else throw "To address not specified"
  let bigChainID : Option Int := some chainId
  pure (NewTx (.dynamicFee
    { ChainID := bigChainID, Nonce := nonce, GasFeeCap := feeCap, GasTipCap := tip,
      Gas := gasLimit, To := some to_, Value := value, Data := txDataToSign,
      V := none, R := none, S := none }))

/-- The function `getTransactionData`. -/
def getTransactionData (lib : Lib) (data : FieldData) : Except String Transaction := do
  let dataOrFile := Get data.data ""
  let txDataToSign ←
    if dataOrFile.length > 0 then lib.Decode dataOrFile else pure []
  let _chainId ←
    if GetOk data.chain_id then
      (if Get data.chain_id 0 = 0 then throw "invalid chain id"
       else pure (Get data.chain_id 0))
    else (throw "Chain ID not specified" : Except String Int)
  let value ←
    if GetOk data.value then
      match lib.ValidNumber (Get data.value "") with
      | none => throw "invalid value"
      | some v => pure (some v)
    else pure (lib.ValidNumber "0")
  let nonce ←
    if GetOk data.nonce then pure (uint64OfInt64 (Get data.nonce 0))
    else throw "Nonce not specified"
  let gasLimit ←
    if GetOk data.gas_limit then pure (ParseUint (Get data.gas_limit "21000")).1
    else throw "Gas limit not specified"
  let gasPrice ←
    if GetOk data.gas_price then pure (SetString (Get data.gas_price "0"))
    else throw "Gas price not specified"
  let to_ ←
    if GetOk data.to_ then pure (lib.HexToAddress (Get data.to_ ""))
    else throw "To address not specified"
  pure (NewTx (.legacy
    { Nonce := nonce, Gas := gasLimit, GasPrice := gasPrice, To := some to_,
      Value := value, Data := txDataToSign, V := none, R := none, S := none }))

/-! ## Text and bytes -/

/-- The UTF-8 encoding of one character. -/
def utf8Encode (c : Char) : Bytes :=
  let n := c.toNat
  if n < 128 then [n]
  else if n < 2048 then [192 + n / 64, 128 + n % 64]
  else if n < 65536 then [224 + n / 4096, 128 + (n / 64) % 64, 128 + n % 64]
  else [240 + n / 262144, 128 + (n / 4096) % 64, 128 + (n / 64) % 64, 128 + n % 64]

/-- The conversion `[]byte(s)` of a string. -/
def stringBytes (s : String) : Bytes :=
  s.toList.flatMap utf8Encode

/-- The sixteen lower-case hexadecimal digits. -/
def hexDigits : List Char := "0123456789abcdef".toList

/-- The two hexadecimal digits of one byte. -/
def hexOfByte (b : Nat) : List Char :=
  [hexDigits.getD (b / 16 % 16) '0', hexDigits.getD (b % 16) '0']

/-- The function `hexutil.Encode`: `0x` followed by the hexadecimal digits. -/
def hexutilEncode (b : Bytes) : String :=
  String.mk ('0' :: 'x' :: b.flatMap hexOfByte)

/-- The text `accounts.TextAndHash` hashes, as bytes: the result of
`fmt.Sprintf("\x19Ethereum Signed Message:\n%d%s", len(data), string(data))`. -/
def signedMessageText (data : Bytes) : Bytes :=
  stringBytes "\x19Ethereum Signed Message:\n" ++ stringBytes (toString data.length) ++ data

/-- The function `accounts.TextAndHash`: the hash of the prefixed message and
the prefixed message. -/
def TextAndHash (Keccak256 : Bytes → Bytes) (data : Bytes) : Bytes × Bytes :=
  let msg := signedMessageText data
  (Keccak256 msg, msg)

/-! ## Storage and requests -/

/-- A `logical.StorageEntry` written by this plugin: the JSON form of an
account record or of a chain record. -/
inductive StorageEntry where
  | account (value : AccountJSON)
  | chain (value : ChainJSON)
deriving DecidableEq, Repr

/-- The call `entry.DecodeJSON(&accountJSON)`: the decoded record and the
error.  The JSON of a chain record shares no key with `AccountJSON`, so
decoding it leaves the zero record. -/
def StorageEntry.DecodeAccountJSON (entry : StorageEntry) : AccountJSON × Option String :=
  match entry with
  | .account a => (a, none)
  | .chain _ => ({ Index := 0, Mnemonic := "" }, none)

/-- The call `entry.DecodeJSON(&result)` for a `ChainJSON`. -/
def StorageEntry.DecodeChainJSON (entry : StorageEntry) : ChainJSON × Option String :=
  match entry with
  | .chain c => (c, none)
  | .account _ =>
      ({ BoundCIDRList := [], Inclusions := [], Exclusions := [], RPC := "", ChainID := "" },
        none)

/-- The `logical.Storage` of a request, as the in-memory key-value store:
a list of key and entry pairs with at most the first pair of a key in use.
Its operations do not fail. -/
structure Storage where
  entries : List (String × StorageEntry)
deriving DecidableEq, Repr

/-- The method `Storage.Get`: the entry under a key, `none` when there is none. -/
def Storage.Get (s : Storage) (key : String) : Except String (Option StorageEntry) :=
  .ok ((s.entries.find? (fun kv => kv.1 = key)).map (fun kv => kv.2))

/-- The method `Storage.Put`: the store with the entry under the key. -/
def Storage.Put (s : Storage) (key : String) (entry : StorageEntry) : Except String Storage :=
  .ok { entries := (key, entry) :: s.entries.filter (fun kv => kv.1 ≠ key) }

/-- The method `Storage.Delete`: the store without the key. -/
def Storage.Delete (s : Storage) (key : String) : Except String Storage :=
  .ok { entries := s.entries.filter (fun kv => kv.1 ≠ key) }

/-- The type `logical.Connection`. -/
structure Connection where
  RemoteAddr : String
deriving DecidableEq, Repr

/-- The type `logical.Request`, with the fields the handlers read. -/
structure Request where
  Storage : Storage
  Path : String
  Connection : Option Connection
deriving DecidableEq, Repr

/-- What a handler call comes to: a returned value, a returned `error`, or
a run-time panic (a nil dereference, or a `Must` function). -/
inductive Outcome (α : Type) where
  | ok (value : α)
  | error (err : String)
  | panic (reason : String)
deriving DecidableEq, Repr

/-- The `Data` map of the `logical.Response` a handler returns. -/
inductive Response where
  | address (address : String)
  | signedTx (chainId : Int) (signedTransaction : Transaction) (rlpSignature : String)
  | signedMessage (signature : String) (address : Address) (hashedMessage : String)
  | chain (bound_cidr_list inclusions exclusions : List String) (rpc_url chain_id : String)
deriving DecidableEq, Repr

/-- The function `QualifiedPath`. -/
def QualifiedPath (subpath : String) : String := subpath

/-! ## The handlers of `path_accounts.go` -/

/-- The function `readAccount`.  The error of `DecodeJSON` is assigned and
never inspected; the check that follows it tests `entry`, which is not nil
there. -/
def readAccount (req : Request) (name : String) : Except String (Option AccountJSON) :=
  let path := QualifiedPath ("accounts/" ++ name)
  match req.Storage.Get path with
  | .error err => .error err
  | .ok none => .ok none
  | .ok (some entry) =>
      let (accountJSON, _err) := entry.DecodeAccountJSON
      .ok (some accountJSON)

/-- The recovered message of a Go nil pointer dereference. -/
def nilDereference : String :=
  "runtime error: invalid memory address or nil pointer dereference"

/-- The function `getWalletAndAccount`.  `MustParseDerivationPath` panics
when the path does not parse. -/
def getWalletAndAccount (lib : Lib) (accountJSON : AccountJSON) : Outcome (Wallet × Account) :=
  match lib.NewFromMnemonic accountJSON.Mnemonic with
  | .error err => .error err
  | .ok hdwallet =>
      let derivationPath := "m/44'/60'/0'/0/" ++ toString accountJSON.Index
      match lib.ParseDerivationPath derivationPath with
      | .error err => .panic err
      | .ok path =>
          match lib.Derive hdwallet path with
          | .error err => .error err
          | .ok account => .ok (hdwallet, account)

/-- The handler `pathSignEIP1559Tx`. -/
def pathSignEIP1559Tx (lib : Lib) (req : Request) (data : FieldData) :
    Outcome (Option Response) :=
  let name := Get data.name ""
  match readAccount req name with
  | .error err => .error err
  | .ok none => .panic nilDereference
  | .ok (some accountJSON) =>
      match getWalletAndAccount lib accountJSON with
      | .error err => .error err
      | .panic reason => .panic reason
      | .ok (wallet, account) =>
          match getEIP1559TransactionData lib data with
          | .error err => .error err
          | .ok tx =>
              match lib.SignTx wallet account tx tx.ChainId with
              | .error err => .error err
              | .ok signedTx =>
                  .ok (some (.signedTx tx.ChainId signedTx
                    (hexutilEncode (lib.EncodeRLP signedTx))))

/-- The handler `pathSignTx`. -/
def pathSignTx (lib : Lib) (req : Request) (data : FieldData) : Outcome (Option Response) :=
  let name := Get data.name ""
  match readAccount req name with
  | .error err => .error err
  | .ok none => .panic nilDereference
  | .ok (some accountJSON) =>
      match getWalletAndAccount lib accountJSON with
      | .error err => .error err
      | .panic reason => .panic reason
      | .ok (wallet, account) =>
          match getTransactionData lib data with
          | .error err => .error err
          | .ok tx =>
              let chainId := Get data.chain_id 0
              let bigChainID := chainId
              match lib.SignTxEIP155 wallet account tx bigChainID with
              | .error err => .error err
              | .ok signedTx =>
                  .ok (some (.signedTx bigChainID signedTx
                    (hexutilEncode (lib.EncodeRLP signedTx))))

/-- The handler `pathSignMessage`. -/
def pathSignMessage (lib : Lib) (req : Request) (data : FieldData) :
    Outcome (Option Response) :=
  let message := Get data.message ""
  let name := Get data.name ""
  match readAccount req name with
  | .error err => .error err
  | .ok none => .panic nilDereference
  | .ok (some accountJSON) =>
      match getWalletAndAccount lib accountJSON with
      | .error err => .error err
      | .panic reason => .panic reason
      | .ok (wallet, account) =>
          let hashedMessage := (TextAndHash lib.Keccak256 (stringBytes message)).1
          match lib.SignHash wallet account hashedMessage with
          | .error err => .error err
          | .ok signedMessage =>
              .ok (some (.signedMessage (hexutilEncode signedMessage) account.Address
                (hexutilEncode hashedMessage)))

/-! ## Chain records and the origin check of `path_chains.go` -/

/-- The function `readChain`. -/
def readChain (req : Request) (name : String) : Except String ChainJSON :=
  let path := QualifiedPath ("chains/" ++ name)
  match req.Storage.Get path with
  | .error err => .error err
  | .ok none => .error "the plugin has not been configured yet"
  | .ok (some entry) =>
      match entry.DecodeChainJSON with
      | (_, some err) => .error ("error reading configuration: " ++ err)
      | (result, none) => .ok result

/-- The function `writeChain`: the store after the write. -/
def writeChain (req : Request) (name : String) (chainJSON : ChainJSON) : Except String Storage :=
  let path := QualifiedPath ("chains/" ++ name)
  req.Storage.Put path (.chain chainJSON)

/-- The text `fmt.Errorf` gives the rejection of an origin; `%q` is written for
an address without characters that Go would escape. -/
def unauthorizedError (remoteAddr : String) : String :=
  "source address \"" ++ remoteAddr ++ "\" unauthorized through CIDR restrictions on the role"

/-- The method `validIPConstraints`: the flag and the `error`. -/
def validIPConstraints (lib : Lib) (config : ChainJSON) (req : Request) : Bool × Option String :=
  if config.BoundCIDRList.length ≠ 0 then
    match req.Connection with
    | none => (false, some "failed to get connection information")
    | some conn =>
        if conn.RemoteAddr = "" then (false, some "failed to get connection information")
        else
          match lib.IPBelongsToCIDRBlocksSlice conn.RemoteAddr config.BoundCIDRList with
          | .error err =>
              (false, some ("failed to verify the CIDR restrictions set on the role: " ++ err))
          | .ok belongs =>
              if !belongs then
                (false, some (unauthorizedError conn.RemoteAddr))
              else (true, none)
  else (true, none)

/-- The method `configured_chain`: the chain record and the `error`, as the
pair Go returns. -/
def configured_chain (lib : Lib) (req : Request) (name : String) :
    Option ChainJSON × Option String :=
  match readChain req name with
  | .error err => (none, some err)
  | .ok chain =>
      match validIPConstraints lib chain req with
      | (false, err) => (none, err)
      | (true, _) => (some chain, none)

/-! ## A model of the origin check for dotted-decimal IPv4 text

`cidrutil` and package `net` also read IPv6 literals; the definitions of this
section cover the dotted-decimal form only and reject any other text. -/

/-- Splits a text at every occurrence of a separator character. -/
def splitChars (sep : Char) : List Char → List (List Char)
  | [] => [[]]
  | c :: cs =>
      if c = sep then [] :: splitChars sep cs
      else
        match splitChars sep cs with
        | [] => [[c]]
        | part :: parts => (c :: part) :: parts

/-- One field of a dotted-decimal address: one to three digits, no leading
zero, at most 255. -/
def parseOctet (cs : List Char) : Option Nat :=
  if cs = [] ∨ cs.length > 3 then none
  else if cs.length > 1 ∧ cs.head? = some '0' then none
  else
    match parseDigits cs 0 with
    | some n => if n ≤ 255 then some n else none
    | none => none

/-- The function `net.ParseIP` on dotted-decimal text: the address as a
32-bit number. -/
def parseIPv4 (s : String) : Option Nat :=
  match (splitChars '.' s.toList).map parseOctet with
  | [some a, some b, some c, some d] => some (((a * 256 + b) * 256 + c) * 256 + d)
  | _ => none

/-- The function `net.ParseCIDR` on `a.b.c.d/n`: the network address and the
length of the mask. -/
def parseCIDRv4 (s : String) : Option (Nat × Nat) :=
  let cs := s.toList
  if '/' ∉ cs then none
  else
    let addr := cs.takeWhile (fun c => c ≠ '/')
    let mask := (cs.dropWhile (fun c => c ≠ '/')).drop 1
    match parseIPv4 (String.mk addr), (if mask = [] then none else parseDigits mask 0) with
    | some ip, some n =>
        if n ≤ 32 then some (ip / 2 ^ (32 - n) * 2 ^ (32 - n), n) else none
    | _, _ => none

/-- The function `cidrutil.IPBelongsToCIDR` on IPv4 text. -/
def ipv4BelongsToCIDR (ipAddr cidr : String) : Except String Bool :=
  if ipAddr = "" then .error "missing IP address"
  else
    match parseIPv4 ipAddr with
    | none => .error "invalid IP address"
    | some ip =>
        match parseCIDRv4 cidr with
        | none => .error ("invalid CIDR address: " ++ cidr)
        | some (network, n) => .ok (decide (ip / 2 ^ (32 - n) = network / 2 ^ (32 - n)))

/-- The loop of `cidrutil.IPBelongsToCIDRBlocksSlice`: the first block that
fails to parse or that holds the address ends it. -/
def ipv4BelongsLoop (ipAddr : String) : List String → Except String Bool
  | [] => .ok false
  | cidr :: rest =>
      match ipv4BelongsToCIDR ipAddr cidr with
      | .error err => .error err
      | .ok true => .ok true
      | .ok false => ipv4BelongsLoop ipAddr rest

/-- The function `cidrutil.IPBelongsToCIDRBlocksSlice` on IPv4 text. -/
def ipv4BelongsToCIDRBlocksSlice (ipAddr : String) (cidrs : List String) : Except String Bool :=
  if ipAddr = "" then .error "missing IP address"
  else if cidrs.length = 0 then .error "missing CIDR blocks to be checked against"
  else if parseIPv4 ipAddr = none then .error "invalid IP address"
  else ipv4BelongsLoop ipAddr cidrs

/-! ## A concrete library instance

Used to run the embedded functions on concrete requests.  Its text-processing
fields follow the libraries they stand for; its wallet, signature, hash and
encoding fields are small deterministic functions that compute no
cryptography, and no general theorem depends on what they return. -/

/-- The value of a hexadecimal digit. -/
def hexValue (c : Char) : Option Nat :=
  if 48 ≤ c.toNat ∧ c.toNat ≤ 57 then some (c.toNat - 48)
  else if 97 ≤ c.toNat ∧ c.toNat ≤ 102 then some (c.toNat - 87)
  else if 65 ≤ c.toNat ∧ c.toNat ≤ 70 then some (c.toNat - 55)
  else none

/-- Decodes pairs of hexadecimal digits up to the first character that is not
one; a trailing single digit is dropped (`common.Hex2Bytes`, which ignores the
error of `hex.DecodeString`). -/
def decodeHexPairs : List Char → Bytes
  | a :: b :: rest =>
      match hexValue a, hexValue b with
      | some x, some y => (x * 16 + y) :: decodeHexPairs rest
      | _, _ => []
  | _ => []

/-- Strict decoding of hexadecimal text (`hex.Decode`): every character a
digit and their number even. -/
def decodeHexStrict : List Char → Except String Bytes
  | [] => .ok []
  | [_] => .error "encoding/hex: odd length hex string"
  | a :: b :: rest =>
      match hexValue a, hexValue b with
      | some x, some y =>
          match decodeHexStrict rest with
          | .ok bs => .ok ((x * 16 + y) :: bs)
          | .error e => .error e
      | _, _ => .error "encoding/hex: invalid byte"

/-- The function `common.FromHex`: an optional `0x`, an odd number of digits
padded with a leading zero. -/
def FromHex (s : String) : Bytes :=
  let cs :=
    match s.toList with
    | '0' :: 'x' :: rest => rest
    | '0' :: 'X' :: rest => rest
    | other => other
  decodeHexPairs (if cs.length % 2 = 1 then '0' :: cs else cs)

/-- The function `common.BytesToAddress`: the last twenty bytes, padded with
zeros on the left. -/
def BytesToAddress (b : Bytes) : Address :=
  let b := if b.length > 20 then b.drop (b.length - 20) else b
  { bytes := List.replicate (20 - b.length) 0 ++ b }

/-- Modelled from the spec: `util.ValidNumber`, which is not among the embedded
sources.  The spec: numeric amounts are decimal-string-encoded
arbitrary-precision integers; a malformed or negative string fails. -/
def specValidNumber (input : String) : Option Int :=
  match SetString input with
  | some v => if v < 0 then none else some v
  | none => none

/-- Stand-in for `hdwallet.NewFromMnemonic`: twelve words make a wallet. -/
def sampleNewFromMnemonic (m : String) : Except String Wallet :=
  if m = "" then .error "mnemonic is required"
  else if (splitChars ' ' m.toList).length = 12 then
    .ok { mnemonic := m, seed := stringBytes m }
  else .error "mnemonic is invalid"

/-- Stand-in for `accounts.ParseDerivationPath` on the paths of the template
`DerivationPath`: the text after its fifteen fixed characters is the index. -/
def sampleParseDerivationPath (p : String) : Except String (List Nat) :=
  match p.toList.drop 15 with
  | [] => .error "empty derivation path"
  | ds =>
      match parseDigits ds 0 with
      | some n =>
          if n ≤ 4294967295 then .ok [2147483692, 2147483708, 2147483648, 0, n]
          else .error "component out of allowed range"
      | none => .error "invalid component"

/-- Stand-in for `(*Wallet).Derive`. -/
def sampleDerive (w : Wallet) (path : List Nat) : Except String Account :=
  let bytes := (List.range 20).map (fun i => (w.seed.getD i 0 + path.getLastD 0 + i) % 256)
  .ok { Address := { bytes := bytes }, URL := "" }

/-- Stand-in for the transaction signers: fills in `V`, `R` and `S`. -/
def sampleSignTx (_w : Wallet) (a : Account) (tx : Transaction) (chainID : Int) :
    Except String Transaction :=
  match tx.inner with
  | .legacy t =>
      let signed := { t with V := chainID * 2 + 35, R := (a.Address.bytes.sum : Nat), S := 1 }
      .ok { inner := .legacy signed }
  | .dynamicFee t =>
      let signed := { t with V := 0, R := (a.Address.bytes.sum : Nat), S := 1 }
      .ok { inner := .dynamicFee signed }

/-- Stand-in for Keccak-256: thirty-two bytes that depend on the input. -/
def sampleKeccak256 (b : Bytes) : Bytes :=
  (List.range 32).map (fun i => (b.sum + i) % 256)

/-- The instance. -/
def sampleLib : Lib where
  Decode := fun s => decodeHexStrict s.toList
  ValidNumber := specValidNumber
  HexToAddress := fun s => BytesToAddress (FromHex s)
  Hex := fun a => hexutilEncode a.bytes
  NewFromMnemonic := sampleNewFromMnemonic
  ParseDerivationPath := sampleParseDerivationPath
  Derive := sampleDerive
  SignTx := sampleSignTx
  SignTxEIP155 := sampleSignTx
  SignHash := fun _ a hash => .ok (hash ++ a.Address.bytes.take 1)
  Keccak256 := sampleKeccak256
  EncodeRLP := fun tx => [tx.Nonce % 256, tx.Gas % 256]
  IPBelongsToCIDRBlocksSlice := ipv4BelongsToCIDRBlocksSlice

/-! ## The checks of the builders, one field at a time

Written from the specification, section 4.2: validation is fail-fast, the
first missing or invalid required field aborts construction.  Each check
looks at one field on its own and gives the error of that field, if any; the
texts are those of `tx.go`. -/

/-- The `data` field: when not empty it has to decode. -/
def checkData (lib : Lib) (data : FieldData) : Option String :=
  if (Get data.data "").length > 0 then
    match lib.Decode (Get data.data "") with
    | .error err => some err
    | .ok _ => none
  else none

/-- The `chain_id` field of a legacy transaction: supplied and not zero. -/
def checkChainId (data : FieldData) : Option String :=
  match data.chain_id with
  | none => some "Chain ID not specified"
  | some c => if c = 0 then some "invalid chain id" else none

/-- The `value` field: when supplied it has to be a valid number. -/
def checkValue (lib : Lib) (data : FieldData) : Option String :=
  match data.value with
  | none => none
  | some s => if lib.ValidNumber s = none then some "invalid value" else none

/-- The `nonce` field: supplied. -/
def checkNonce (data : FieldData) : Option String :=
  if data.nonce = none then some "Nonce not specified" else none

/-- The `gas_limit` field: supplied. -/
def checkGasLimit (data : FieldData) : Option String :=
  if data.gas_limit = none then some "Gas limit not specified" else none

/-- The `gas_price` field: supplied. -/
def checkGasPrice (data : FieldData) : Option String :=
  if data.gas_price = none then some "Gas price not specified" else none

/-- The `max_priority_fee_per_gas` field: supplied. -/
def checkTip (data : FieldData) : Option String :=
  if data.max_priority_fee_per_gas = none then some "Gas limit not specified" else none

/-- The `max_fee_per_gas` field: supplied. -/
def checkFeeCap (data : FieldData) : Option String :=
  if data.max_fee_per_gas = none then some "Gas limit not specified" else none

/-- The `to` field: supplied. -/
def checkTo (data : FieldData) : Option String :=
  if data.to_ = none then some "To address not specified" else none

/-- The error of the first check that fails, `none` when all pass. -/
def firstFailure : List (Option String) → Option String
  | [] => none
  | some e :: _ => some e
  | none :: rest => firstFailure rest

/-- The checks of the legacy builder in its order. -/
def legacyChecks (lib : Lib) (data : FieldData) : List (Option String) :=
  [checkData lib data, checkChainId data, checkValue lib data, checkNonce data,
   checkGasLimit data, checkGasPrice data, checkTo data]

/-- The checks of the dynamic-fee builder in its order. -/
def dynamicFeeChecks (lib : Lib) (data : FieldData) : List (Option String) :=
  [checkData lib data, checkValue lib data, checkNonce data, checkGasLimit data,
   checkTip data, checkFeeCap data, checkTo data]

/-- The bytes of the `data` field once its check has passed. -/
def decodedData (lib : Lib) (data : FieldData) : Bytes :=
  if (Get data.data "").length > 0 then
    match lib.Decode (Get data.data "") with
    | .ok b => b
    | .error _ => []
  else []

/-- The number of the `value` field once its check has passed; an absent
field stands for the text `0`. -/
def parsedValue (lib : Lib) (data : FieldData) : Option Int :=
  match data.value with
  | some s => lib.ValidNumber s
  | none => lib.ValidNumber "0"

/-- The legacy transaction assembled from the fields. -/
def legacyTxOf (lib : Lib) (data : FieldData) : Transaction :=
  NewTx (.legacy
    { Nonce := uint64OfInt64 (Get data.nonce 0),
      Gas := (ParseUint (Get data.gas_limit "21000")).1,
      GasPrice := SetString (Get data.gas_price "0"),
      To := some (lib.HexToAddress (Get data.to_ "")),
      Value := parsedValue lib data, Data := decodedData lib data,
      V := none, R := none, S := none })

/-- The dynamic-fee transaction assembled from the fields. -/
def dynamicFeeTxOf (lib : Lib) (data : FieldData) : Transaction :=
  NewTx (.dynamicFee
    { ChainID := some 0,
      Nonce := uint64OfInt64 (Get data.nonce 0),
      GasTipCap := SetString (Get data.max_priority_fee_per_gas "0"),
      GasFeeCap := SetString (Get data.max_fee_per_gas "0"),
      Gas := (ParseUint (Get data.gas_limit "21000")).1,
      To := some (lib.HexToAddress (Get data.to_ "")),
      Value := parsedValue lib data, Data := decodedData lib data,
      V := none, R := none, S := none })

/-! ## Concrete requests -/

/-- A twelve-word mnemonic. -/
def exampleMnemonic : String :=
  "abandon abandon abandon abandon abandon abandon abandon abandon abandon abandon abandon about"

/-- The text of an address whose hexadecimal digits are all decimal, so that
its checksummed form has no letter to capitalise. -/
def exampleAddressText : String := "0x1111111111111111111111111111111111111111"

/-- A chain record whose exclusion list holds `exampleAddressText`. -/
def exampleChain : ChainJSON :=
  { BoundCIDRList := [], Inclusions := [], Exclusions := [exampleAddressText],
    RPC := "http://localhost:8545", ChainID := "1" }

/-- A store with the account `alice` and the chain `main`. -/
def exampleStorage : Storage :=
  { entries := [("accounts/alice", .account { Index := 0, Mnemonic := exampleMnemonic }),
                ("chains/main", .chain exampleChain)] }

/-- The same store without the chain record. -/
def exampleStorageNoChain : Storage :=
  { entries := [("accounts/alice", .account { Index := 0, Mnemonic := exampleMnemonic })] }

/-- A request on `exampleStorage` from a given origin. -/
def exampleRequest (path : String) (origin : Option String) : Request :=
  { Storage := exampleStorage, Path := path,
    Connection := origin.map (fun a => { RemoteAddr := a }) }

/-- A complete legacy signing request for `alice`, destination
`exampleAddressText`. -/
def legacyBag : FieldData :=
  { FieldData.empty with
    name := some "alice", chain_id := some 1, nonce := some 1,
    to_ := some exampleAddressText, value := some "1000",
    gas_limit := some "21000", gas_price := some "0" }

/-- A complete dynamic-fee signing request for `alice`, destination
`exampleAddressText`, with `chain_id` 5. -/
def dynamicFeeBag : FieldData :=
  { FieldData.empty with
    name := some "alice", chain_id := some 5, nonce := some 1,
    to_ := some exampleAddressText, value := some "1000",
    gas_limit := some "21000", max_priority_fee_per_gas := some "2",
    max_fee_per_gas := some "30" }

/-- A chain record bound to one CIDR block list. -/
def chainBoundTo (cidrs : List String) : ChainJSON :=
  { BoundCIDRList := cidrs, Inclusions := [], Exclusions := [], RPC := "", ChainID := "1" }

/-! ## The handlers that read, create and delete records -/

/-- The handler `pathAccountsRead`.  The account pointer is dereferenced for the
call of `getWalletAndAccount` before it is compared with nil; the comparison
that follows the call is reached only with a pointer that is not nil and an
error that is nil, so its branch is never taken. -/
def pathAccountsRead (lib : Lib) (req : Request) (data : FieldData) :
    Outcome (Option Response) :=
  let name := Get data.name ""
  match readAccount req name with
  | .error err => .error err
  | .ok none => .panic nilDereference
  | .ok (some accountJSON) =>
      match getWalletAndAccount lib accountJSON with
      | .error err => .error err
      | .panic reason => .panic reason
      | .ok (_, account) => .ok (some (.address (lib.Hex account.Address)))

/-- The randomness and the BIP-39 encoding `pathAccountsCreate` uses when the
request supplies no mnemonic: the result of `bip39.NewEntropy(128)` in this
call, and the function `bip39.NewMnemonic`. -/
structure Bip39 where
  NewEntropy : Except String Bytes
  NewMnemonic : Bytes → Except String String

/-- The method `updateAccount`: the store after the write.  The JSON encoding of
an `AccountJSON` does not fail. -/
def updateAccount (req : Request) (name : String) (accountJSON : AccountJSON) :
    Except String Storage :=
  let path := QualifiedPath ("accounts/" ++ name)
  req.Storage.Put path (.account accountJSON)

/-- The handler `pathAccountsCreate`: what it returns and the store it leaves.
The error of `bip39.NewMnemonic` is assigned and never inspected; the mnemonic
it returns with an error is the empty string. -/
def pathAccountsCreate (lib : Lib) (bip : Bip39) (req : Request) (data : FieldData) :
    Outcome (Option Response) × Storage :=
  let name := Get data.name ""
  let index := Get data.index 0
  let mnemonic := Get data.mnemonic ""
  let generated : Except String String :=
    if mnemonic = "" then
      match bip.NewEntropy with
      | .error err => .error err
      | .ok entropy =>
          match bip.NewMnemonic entropy with
          | .ok m => .ok m
          | .error _ => .ok ""
    else .ok mnemonic
  match generated with
  | .error err => (.error err, req.Storage)
  | .ok mnemonic =>
      let accountJSON : AccountJSON := { Index := index, Mnemonic := mnemonic }
      match getWalletAndAccount lib accountJSON with
      | .error err => (.error err, req.Storage)
      | .panic reason => (.panic reason, req.Storage)
      | .ok (_, account) =>
          match updateAccount req name accountJSON with
          | .error err => (.error err, req.Storage)
          | .ok written => (.ok (some (.address (lib.Hex account.Address))), written)

/-- The handler `pathAccountsDelete`: what it returns and the store it leaves.
The delete is at `req.Path`. -/
def pathAccountsDelete (req : Request) (data : FieldData) :
    Outcome (Option Response) × Storage :=
  let name := Get data.name ""
  match readAccount req name with
  | .error err => (.error err, req.Storage)
  | .ok _ =>
      match req.Storage.Delete req.Path with
      | .error err => (.error err, req.Storage)
      | .ok deleted => (.ok none, deleted)

/-- The handler `pathChainsDelete`: what it returns and the store it leaves.
The delete is at `req.Path`. -/
def pathChainsDelete (req : Request) (data : FieldData) :
    Outcome (Option Response) × Storage :=
  let name := Get data.name ""
  match readChain req name with
  | .error err => (.error err, req.Storage)
  | .ok _ =>
      match req.Storage.Delete req.Path with
      | .error err => (.error err, req.Storage)
      | .ok deleted => (.ok none, deleted)

/-- The mnemonic `pathAccountsCreate` goes on with: the supplied one, or, when
none is supplied, the generated one; an error when the entropy cannot be
read. -/
def chosenMnemonic (bip : Bip39) (data : FieldData) : Except String String :=
  if Get data.mnemonic "" = "" then
    match bip.NewEntropy with
    | .error err => .error err
    | .ok entropy =>
        match bip.NewMnemonic entropy with
        | .ok m => .ok m
        | .error _ => .ok ""
  else .ok (Get data.mnemonic "")

/-- A stand-in for the random source and `bip39.NewMnemonic`: sixteen fixed
bytes, encoded as `exampleMnemonic`. -/
def sampleBip39 : Bip39 where
  NewEntropy := .ok (List.replicate 16 0)
  NewMnemonic := fun _ => .ok exampleMnemonic

/-- A request on a given store. -/
def requestOn (store : Storage) (path : String) : Request :=
  { Storage := store, Path := path, Connection := none }

/-- The fields of a request that names a record and nothing else. -/
def nameOnly (name : String) : FieldData :=
  { FieldData.empty with name := some name }


/-- The constant `DerivationPath` filled in with an index, as
`getWalletAndAccount` does with `fmt.Sprintf`. -/
def derivationPath (index : Int) : String :=
  "m/44'/60'/0'/0/" ++ toString index


/-- The fields of a request that creates `bob` with the twelve-word mnemonic and
index 3. -/
def createBob : FieldData :=
  { FieldData.empty with name := some "bob", mnemonic := some exampleMnemonic, index := some 3 }

/-- The store `exampleStorage` after the record of `createBob` is written. -/
def exampleStorageWithBob : Storage :=
  { entries := ("accounts/bob", .account { Index := 3, Mnemonic := exampleMnemonic }) ::
      exampleStorage.entries }


/-! ## Helper lemmas -/

theorem Contains_iff_mem (l : List String) (s : String) : Contains l s = true ↔ s ∈ l := by
  induction l with
  | nil => simp [Contains]
  | cons x xs ih =>
      by_cases h : x = s
      · simp [Contains, h]
      · have h2 : ¬ s = x := fun e => h e.symm
        simp [Contains, h, h2, ih]

theorem string_append_left_cancel (h a b : String) (e : h ++ a = h ++ b) : a = b := by
  have e2 : (h ++ a).data = (h ++ b).data := by rw [e]
  simp only [String.data_append] at e2
  exact String.ext (List.append_cancel_left e2)

theorem excludedError_ne_notIncludedError (h : String) :
    excludedError h ≠ notIncludedError h := by
  intro e
  have := string_append_left_cancel _ _ _ e
  revert this
  decide

/-! ## C1 -/

theorem readAccount_congr (req1 req2 : Request) (name : String)
    (h : req1.Storage.Get (QualifiedPath ("accounts/" ++ name)) =
      req2.Storage.Get (QualifiedPath ("accounts/" ++ name))) :
    readAccount req1 name = readAccount req2 name := by
  simp only [readAccount, h]

theorem accounts_key_ne_chains_key (a b : String) : "accounts/" ++ a ≠ "chains/" ++ b := by
  intro e
  have e2 : ("accounts/" ++ a).data = ("chains/" ++ b).data := by rw [e]
  simp only [String.data_append] at e2
  simp at e2

theorem find_filter_ne (l : List (String × StorageEntry)) (key other : String)
    (h : key ≠ other) :
    (l.filter (fun kv => kv.1 ≠ other)).find? (fun kv => kv.1 = key) =
      l.find? (fun kv => kv.1 = key) := by
  induction l with
  | nil => rfl
  | cons x xs ih =>
      by_cases hx : x.1 = other
      · have hk : ¬ x.1 = key := fun e => h (e.symm.trans hx)
        rw [List.filter_cons_of_neg (by simpa using hx),
          List.find?_cons_of_neg _ (by simpa using hk)]
        exact ih
      · rw [List.filter_cons_of_pos (by simpa using hx)]
        by_cases hk : x.1 = key
        · rw [List.find?_cons_of_pos _ (by simpa using hk),
            List.find?_cons_of_pos _ (by simpa using hk)]
        · rw [List.find?_cons_of_neg _ (by simpa using hk),
            List.find?_cons_of_neg _ (by simpa using hk)]
          exact ih

theorem Get_Put_other (s s' : Storage) (key other : String) (entry : StorageEntry)
    (h : key ≠ other) (hp : s.Put other entry = .ok s') : s'.Get key = s.Get key := by
  simp only [Storage.Put, Except.ok.injEq] at hp
  subst hp
  have hk : ¬ other = key := fun e => h e.symm
  simp only [Storage.Get, List.find?, hk, decide_False]
  rw [find_filter_ne _ _ _ h]

/-- C1 (the code departs from the claim). The signing handlers never evaluate the
chain policy of `path_chains.go`: `pathSignTx` and `pathSignEIP1559Tx` read the
store only at `accounts/name`, so two requests whose stores agree at that key
get the same outcome for the same fields, whatever chain records the stores
hold; in particular writing a chain record, with any exclusion list, leaves the
outcome of both handlers as it was.  A destination on a stored exclusion list is
therefore not rejected. -/
theorem signing_reads_only_the_account (lib : Lib) (req1 req2 : Request) (data : FieldData)
    (h : req1.Storage.Get (QualifiedPath ("accounts/" ++ Get data.name "")) =
      req2.Storage.Get (QualifiedPath ("accounts/" ++ Get data.name ""))) :
    pathSignTx lib req1 data = pathSignTx lib req2 data ∧
    pathSignEIP1559Tx lib req1 data = pathSignEIP1559Tx lib req2 data ∧
    (∀ (chainName : String) (chainJSON : ChainJSON) (written : Storage),
      writeChain req1 chainName chainJSON = .ok written →
      pathSignTx lib { req1 with Storage := written } data = pathSignTx lib req2 data ∧
      pathSignEIP1559Tx lib { req1 with Storage := written } data =
        pathSignEIP1559Tx lib req2 data) := by
  have hr := readAccount_congr req1 req2 _ h
  refine ⟨?_, ?_, ?_⟩
  · simp only [pathSignTx, hr]
  · simp only [pathSignEIP1559Tx, hr]
  · intro chainName chainJSON written hw
    have hg : written.Get (QualifiedPath ("accounts/" ++ Get data.name "")) =
        req1.Storage.Get (QualifiedPath ("accounts/" ++ Get data.name "")) :=
      Get_Put_other req1.Storage written _ _ _ (accounts_key_ne_chains_key _ _) hw
    have hr2 : readAccount { req1 with Storage := written } (Get data.name "") =
        readAccount req2 (Get data.name "") :=
      readAccount_congr _ req2 _ (hg.trans h)
    exact ⟨by simp only [pathSignTx, hr2], by simp only [pathSignEIP1559Tx, hr2]⟩

/-- C1, at a request: the store holds the chain record `main` whose exclusion
list contains the destination of the request, and `ValidAddress` rejects that
destination for that record; `pathSignTx` nevertheless returns a signed
transaction, and both signing handlers give the outcome they give on the store
without any chain record. -/
theorem signing_reads_only_the_account_witness :
    readChain (exampleRequest "accounts/alice/sign-tx" none) "main" = .ok exampleChain ∧
    legacyBag.to_ = some exampleAddressText ∧
    dynamicFeeBag.to_ = some exampleAddressText ∧
    sampleLib.Hex (sampleLib.HexToAddress exampleAddressText) ∈ exampleChain.Exclusions ∧
    ValidAddress sampleLib.Hex exampleChain (sampleLib.HexToAddress exampleAddressText) =
      some (excludedError exampleAddressText) ∧
    (∃ signedTx rlp,
      pathSignTx sampleLib (exampleRequest "accounts/alice/sign-tx" none) legacyBag =
        .ok (some (.signedTx 1 signedTx rlp))) ∧
    pathSignTx sampleLib (exampleRequest "accounts/alice/sign-tx" none) legacyBag =
      pathSignTx sampleLib (requestOn exampleStorageNoChain "accounts/alice/sign-tx")
        legacyBag ∧
    pathSignEIP1559Tx sampleLib (exampleRequest "accounts/alice/sign-1559-tx" none)
        dynamicFeeBag =
      pathSignEIP1559Tx sampleLib (requestOn exampleStorageNoChain "accounts/alice/sign-1559-tx")
        dynamicFeeBag :=
  ⟨rfl, rfl, rfl, by decide, by decide, ⟨_, _, rfl⟩,
    (signing_reads_only_the_account sampleLib (exampleRequest "accounts/alice/sign-tx" none)
      (requestOn exampleStorageNoChain "accounts/alice/sign-tx") legacyBag rfl).1,
    (signing_reads_only_the_account sampleLib
      (exampleRequest "accounts/alice/sign-1559-tx" none)
      (requestOn exampleStorageNoChain "accounts/alice/sign-1559-tx") dynamicFeeBag rfl).2.1⟩

/-! ## C2 -/

/-- C2. `ValidAddress` is the fixed-order decision of the specification: the
result is the `policyDecision` of the two lists at the hexadecimal text of the
destination; a destination in the exclusion list gets the exclusion error, never
the inclusion error, also when it is in the inclusion list; a destination not
excluded gets the inclusion error exactly when the inclusion list is non-empty
and lacks it; in every other case the result is nil. -/
theorem ValidAddress_fixed_order (Hex : Address → String) (config : ChainJSON) (d : Address) :
    ValidAddress Hex config d = policyDecision config.Exclusions config.Inclusions (Hex d) ∧
    (Hex d ∈ config.Exclusions →
      ValidAddress Hex config d = some (excludedError (Hex d)) ∧
      ValidAddress Hex config d ≠ some (notIncludedError (Hex d))) ∧
    (Hex d ∉ config.Exclusions →
      (ValidAddress Hex config d = some (notIncludedError (Hex d)) ↔
        (config.Inclusions ≠ [] ∧ Hex d ∉ config.Inclusions))) ∧
    (Hex d ∉ config.Exclusions → ¬ (config.Inclusions ≠ [] ∧ Hex d ∉ config.Inclusions) →
      ValidAddress Hex config d = none) := by
  have hlen : (0 < config.Inclusions.length) ↔ config.Inclusions ≠ [] := by
    cases config.Inclusions <;> simp
  refine ⟨?_, ?_, ?_, ?_⟩
  · by_cases h1 : Hex d ∈ config.Exclusions
    · have c1 := (Contains_iff_mem _ _).2 h1
      simp [ValidAddress, policyDecision, h1, c1]
    · have c1 : Contains config.Exclusions (Hex d) = false := by
        cases hc : Contains config.Exclusions (Hex d)
        · rfl
        · exact absurd ((Contains_iff_mem _ _).1 hc) h1
      by_cases h2 : Hex d ∈ config.Inclusions
      · have c2 := (Contains_iff_mem _ _).2 h2
        simp [ValidAddress, policyDecision, h1, c1, h2, c2]
      · have c2 : Contains config.Inclusions (Hex d) = false := by
          cases hc : Contains config.Inclusions (Hex d)
          · rfl
          · exact absurd ((Contains_iff_mem _ _).1 hc) h2
        by_cases h3 : config.Inclusions = []
        · simp [ValidAddress, policyDecision, h1, c1, h2, c2, h3]
        · have h4 := hlen.2 h3
          simp [ValidAddress, policyDecision, h1, c1, h2, c2, h3, h4]
  · intro h1
    have c1 := (Contains_iff_mem _ _).2 h1
    have e : ValidAddress Hex config d = some (excludedError (Hex d)) := by
      simp [ValidAddress, c1]
    refine ⟨e, ?_⟩
    rw [e]
    intro h
    exact excludedError_ne_notIncludedError _ (Option.some.inj h)
  · intro h1
    have c1 : Contains config.Exclusions (Hex d) = false := by
      cases hc : Contains config.Exclusions (Hex d)
      · rfl
      · exact absurd ((Contains_iff_mem _ _).1 hc) h1
    by_cases h2 : Hex d ∈ config.Inclusions
    · have c2 := (Contains_iff_mem _ _).2 h2
      simp [ValidAddress, c1, h2, c2]
    · have c2 : Contains config.Inclusions (Hex d) = false := by
        cases hc : Contains config.Inclusions (Hex d)
        · rfl
        · exact absurd ((Contains_iff_mem _ _).1 hc) h2
      by_cases h3 : config.Inclusions = []
      · simp [ValidAddress, c1, h2, c2, h3]
      · have h4 := hlen.2 h3
        simp [ValidAddress, c1, h2, c2, h3, h4]
  · intro h1 h2
    have c1 : Contains config.Exclusions (Hex d) = false := by
      cases hc : Contains config.Exclusions (Hex d)
      · rfl
      · exact absurd ((Contains_iff_mem _ _).1 hc) h1
    by_cases h3 : config.Inclusions = []
    · simp [ValidAddress, c1, h3]
    · have h5 : Hex d ∈ config.Inclusions := by
        by_contra h
        exact h2 ⟨h3, h⟩
      have c2 := (Contains_iff_mem _ _).2 h5
      simp [ValidAddress, c1, c2]

/-- C2, at a configuration: with the same address in the exclusion list and in
the inclusion list, a request to that address gets the exclusion error. -/
theorem ValidAddress_fixed_order_witness :
    ValidAddress sampleLib.Hex
        { BoundCIDRList := [], Inclusions := [exampleAddressText],
          Exclusions := [exampleAddressText], RPC := "", ChainID := "1" }
        (sampleLib.HexToAddress exampleAddressText) =
      some (excludedError exampleAddressText) :=
  ((ValidAddress_fixed_order sampleLib.Hex
    { BoundCIDRList := [], Inclusions := [exampleAddressText],
      Exclusions := [exampleAddressText], RPC := "", ChainID := "1" }
    (sampleLib.HexToAddress exampleAddressText)).2.1 (by decide)).1

/-! ## C3 -/

theorem ipv4BelongsLoop_wellformed (ip : String) (hne : ip ≠ "") (hip : parseIPv4 ip ≠ none)
    (cidrs : List String) (hall : ∀ c ∈ cidrs, parseCIDRv4 c ≠ none) :
    (ipv4BelongsLoop ip cidrs = .ok true ∨ ipv4BelongsLoop ip cidrs = .ok false) ∧
    (ipv4BelongsLoop ip cidrs = .ok true ↔ ∃ c ∈ cidrs, ipv4BelongsToCIDR ip c = .ok true) := by
  induction cidrs with
  | nil => simp [ipv4BelongsLoop]
  | cons c rest ih =>
      have ih' := ih (fun x hx => hall x (List.mem_cons_of_mem _ hx))
      have hc := hall c (List.mem_cons_self _ _)
      obtain ⟨a, ha⟩ := Option.ne_none_iff_exists'.1 hip
      obtain ⟨nw, hn⟩ := Option.ne_none_iff_exists'.1 hc
      obtain ⟨network, n⟩ := nw
      by_cases hb : a / 2 ^ (32 - n) = network / 2 ^ (32 - n)
      · have e : ipv4BelongsToCIDR ip c = .ok true := by
          simp [ipv4BelongsToCIDR, hne, ha, hn, hb]
        have hl : ipv4BelongsLoop ip (c :: rest) = .ok true := by
          simp only [ipv4BelongsLoop, e]
        rw [hl]
        exact ⟨Or.inl rfl, fun _ => ⟨c, List.mem_cons_self _ _, e⟩, fun _ => rfl⟩
      · have e : ipv4BelongsToCIDR ip c = .ok false := by
          simp [ipv4BelongsToCIDR, hne, ha, hn, hb]
        have hl : ipv4BelongsLoop ip (c :: rest) = ipv4BelongsLoop ip rest := by
          simp only [ipv4BelongsLoop, e]
        rw [hl]
        refine ⟨ih'.1, ?_⟩
        rw [ih'.2]
        constructor
        · rintro ⟨x, hx, hx2⟩
          exact ⟨x, List.mem_cons_of_mem _ hx, hx2⟩
        · rintro ⟨x, hx, hx2⟩
          rcases List.mem_cons.1 hx with rfl | hx'
          · rw [e] at hx2; cases hx2
          · exact ⟨x, hx', hx2⟩

/-- C3 (as amended). `validIPConstraints` accepts exactly when the bound CIDR
list is empty, or the origin is present (connection not nil, remote address not
empty) and the library check `IPBelongsToCIDRBlocksSlice` returns true without
error.  With a non-empty list: a missing origin is rejected with `failed to get
connection information`; a present origin is rejected with `unauthorized
through CIDR restrictions` when the check returns false, and with `failed to
verify the CIDR restrictions` when the check returns an error.  For
dotted-decimal IPv4 text, an origin that parses and a list whose entries all
parse, the check returns true exactly when some listed block holds the origin.
The list `10.0.0.0/8` rejects origin 192.168.1.1 and accepts origin 10.1.2.3. -/
theorem validIPConstraints_outcomes (lib : Lib) (config : ChainJSON) (req : Request) :
    ((validIPConstraints lib config req).1 = true ↔
      (config.BoundCIDRList = [] ∨
        ∃ conn, req.Connection = some conn ∧ conn.RemoteAddr ≠ "" ∧
          lib.IPBelongsToCIDRBlocksSlice conn.RemoteAddr config.BoundCIDRList = .ok true)) ∧
    (config.BoundCIDRList = [] → validIPConstraints lib config req = (true, none)) ∧
    (config.BoundCIDRList ≠ [] →
      (req.Connection = none ∨ ∃ conn, req.Connection = some conn ∧ conn.RemoteAddr = "") →
      validIPConstraints lib config req =
        (false, some "failed to get connection information")) ∧
    (∀ conn, config.BoundCIDRList ≠ [] → req.Connection = some conn → conn.RemoteAddr ≠ "" →
      (lib.IPBelongsToCIDRBlocksSlice conn.RemoteAddr config.BoundCIDRList = .ok true →
        validIPConstraints lib config req = (true, none)) ∧
      (lib.IPBelongsToCIDRBlocksSlice conn.RemoteAddr config.BoundCIDRList = .ok false →
        validIPConstraints lib config req =
          (false, some (unauthorizedError conn.RemoteAddr))) ∧
      (∀ err, lib.IPBelongsToCIDRBlocksSlice conn.RemoteAddr config.BoundCIDRList =
          .error err →
        validIPConstraints lib config req =
          (false, some ("failed to verify the CIDR restrictions set on the role: " ++ err)))) ∧
    (∀ (ip : String) (cidrs : List String), parseIPv4 ip ≠ none → cidrs ≠ [] →
      (∀ c ∈ cidrs, parseCIDRv4 c ≠ none) →
      (ipv4BelongsToCIDRBlocksSlice ip cidrs = .ok true ∨
        ipv4BelongsToCIDRBlocksSlice ip cidrs = .ok false) ∧
      (ipv4BelongsToCIDRBlocksSlice ip cidrs = .ok true ↔
        ∃ c ∈ cidrs, ipv4BelongsToCIDR ip c = .ok true)) ∧
    validIPConstraints sampleLib (chainBoundTo ["10.0.0.0/8"])
        (exampleRequest "accounts/alice/sign-tx" (some "192.168.1.1")) =
      (false, some (unauthorizedError "192.168.1.1")) ∧
    validIPConstraints sampleLib (chainBoundTo ["10.0.0.0/8"])
        (exampleRequest "accounts/alice/sign-tx" (some "10.1.2.3")) = (true, none) := by
  have hlen : config.BoundCIDRList.length ≠ 0 ↔ config.BoundCIDRList ≠ [] := by
    cases config.BoundCIDRList <;> simp
  refine ⟨?_, ?_, ?_, ?_, ?_, by decide, by decide⟩
  · by_cases hl : config.BoundCIDRList = []
    · simp [validIPConstraints, hl]
    · have hl2 := hlen.2 hl
      cases hc : req.Connection with
      | none => simp [validIPConstraints, hl, hl2, hc]
      | some conn =>
          by_cases ha : conn.RemoteAddr = ""
          · simp [validIPConstraints, hl, hl2, hc, ha]
          · cases hb : lib.IPBelongsToCIDRBlocksSlice conn.RemoteAddr config.BoundCIDRList with
            | error e => simp [validIPConstraints, hl, hl2, hc, ha, hb]
            | ok b => cases b <;> simp [validIPConstraints, hl, hl2, hc, ha, hb]
  · intro hl
    simp [validIPConstraints, hl]
  · intro hl ho
    have hl2 := hlen.2 hl
    rcases ho with hc | ⟨conn, hc, ha⟩
    · simp [validIPConstraints, hl2, hc]
    · simp [validIPConstraints, hl2, hc, ha]
  · intro conn hl hc ha
    have hl2 := hlen.2 hl
    refine ⟨?_, ?_, ?_⟩
    · intro hb
      simp [validIPConstraints, hl2, hc, ha, hb]
    · intro hb
      simp [validIPConstraints, hl2, hc, ha, hb]
    · intro err hb
      simp [validIPConstraints, hl2, hc, ha, hb]
  · intro ip cidrs hip hne hall
    have hip0 : ip ≠ "" := by
      intro e
      apply hip
      rw [e]
      decide
    have hl : ¬ cidrs.length = 0 := by
      cases cidrs with
      | nil => exact absurd rfl hne
      | cons _ _ => simp
    have e : ipv4BelongsToCIDRBlocksSlice ip cidrs = ipv4BelongsLoop ip cidrs := by
      simp [ipv4BelongsToCIDRBlocksSlice, hip0, hl, hip]
    rw [e]
    exact ipv4BelongsLoop_wellformed ip hip0 hip cidrs hall

/-- C3, the claim as stated fails. With the list `banana`, `10.0.0.0/8` the
origin 10.1.2.3 is present and belongs to a listed block, and it is rejected;
with the list `banana` alone the origin 192.168.1.1, which matches no block, is
rejected with `failed to verify the CIDR restrictions`, not with `unauthorized
through CIDR restrictions`. -/
theorem validIPConstraints_counterexample :
    "10.0.0.0/8" ∈ (chainBoundTo ["banana", "10.0.0.0/8"]).BoundCIDRList ∧
    ipv4BelongsToCIDR "10.1.2.3" "10.0.0.0/8" = .ok true ∧
    validIPConstraints sampleLib (chainBoundTo ["banana", "10.0.0.0/8"])
        (exampleRequest "accounts/alice/sign-tx" (some "10.1.2.3")) =
      (false, some
        "failed to verify the CIDR restrictions set on the role: invalid CIDR address: banana") ∧
    validIPConstraints sampleLib (chainBoundTo ["banana"])
        (exampleRequest "accounts/alice/sign-tx" (some "192.168.1.1")) =
      (false, some
        "failed to verify the CIDR restrictions set on the role: invalid CIDR address: banana") ∧
    unauthorizedError "192.168.1.1" ≠
      "failed to verify the CIDR restrictions set on the role: invalid CIDR address: banana" := by
  refine ⟨by decide, rfl, by decide, by decide, by decide⟩

/-! ## The builders as their checks -/

theorem getTransactionData_eq (lib : Lib) (data : FieldData) :
    getTransactionData lib data =
      match firstFailure (legacyChecks lib data) with
      | some e => .error e
      | none => .ok (legacyTxOf lib data) := by
  obtain ⟨name, address, chain_id, to_, data_, value, nonce, gas_limit, gas_price, tip, fee,
    message, mnemonic, index⟩ := data
  simp only [getTransactionData, legacyChecks, checkData, checkChainId, checkValue, checkNonce,
    checkGasLimit, checkGasPrice, checkTo, legacyTxOf, decodedData, parsedValue, GetOk]
  by_cases hlen : (Get data_ "").length > 0 <;> simp only [hlen, if_true, if_false] <;>
    cases hD : lib.Decode (Get data_ "") <;>
    rcases chain_id with _ | c <;> rcases value with _ | v <;>
    cases nonce <;> cases gas_limit <;> cases gas_price <;> cases to_ <;>
    (try by_cases hc : c = 0) <;>
    (try cases hv : lib.ValidNumber v) <;>
    simp [firstFailure, bind, Except.bind, throw, throwThe, MonadExceptOf.throw, Get, pure,
      Except.pure, *]

theorem getEIP1559TransactionData_eq (lib : Lib) (data : FieldData) :
    getEIP1559TransactionData lib data =
      match firstFailure (dynamicFeeChecks lib data) with
      | some e => .error e
      | none => .ok (dynamicFeeTxOf lib data) := by
  obtain ⟨name, address, chain_id, to_, data_, value, nonce, gas_limit, gas_price, tip, fee,
    message, mnemonic, index⟩ := data
  simp only [getEIP1559TransactionData, dynamicFeeChecks, checkData, checkValue, checkNonce,
    checkGasLimit, checkTip, checkFeeCap, checkTo, dynamicFeeTxOf, decodedData, parsedValue, GetOk]
  by_cases hlen : (Get data_ "").length > 0 <;> simp only [hlen, if_true, if_false] <;>
    cases hD : lib.Decode (Get data_ "") <;>
    rcases value with _ | v <;>
    cases nonce <;> cases gas_limit <;> cases tip <;> cases fee <;> cases to_ <;>
    (try cases hv : lib.ValidNumber v) <;>
    simp [firstFailure, bind, Except.bind, throw, throwThe, MonadExceptOf.throw, Get, pure,
      Except.pure, *]

theorem firstFailure_eq_none_iff (l : List (Option String)) :
    firstFailure l = none ↔ ∀ c ∈ l, c = none := by
  induction l with
  | nil => simp [firstFailure]
  | cons x xs ih =>
      cases x with
      | none => simp [firstFailure, ih]
      | some e => simp [firstFailure]

theorem firstFailure_of_mem_some (l : List (Option String)) (e : String) (h : some e ∈ l) :
    ∃ e', firstFailure l = some e' := by
  cases hf : firstFailure l with
  | some e' => exact ⟨e', rfl⟩
  | none =>
      have := (firstFailure_eq_none_iff l).1 hf (some e) h
      exact absurd this (by simp)

theorem legacy_error_of_failed_check (lib : Lib) (data : FieldData) (e : String)
    (h : some e ∈ legacyChecks lib data) : ∃ e', getTransactionData lib data = .error e' := by
  obtain ⟨e', he⟩ := firstFailure_of_mem_some _ e h
  exact ⟨e', by rw [getTransactionData_eq, he]⟩

theorem dynamicFee_error_of_failed_check (lib : Lib) (data : FieldData) (e : String)
    (h : some e ∈ dynamicFeeChecks lib data) :
    ∃ e', getEIP1559TransactionData lib data = .error e' := by
  obtain ⟨e', he⟩ := firstFailure_of_mem_some _ e h
  exact ⟨e', by rw [getEIP1559TransactionData_eq, he]⟩

theorem fee_text_not_validated (lib : Lib) (data : FieldData) :
    (∀ s, data.gas_price = some s → checkData lib data = none → checkChainId data = none →
      checkValue lib data = none → checkNonce data = none → checkGasLimit data = none →
      checkTo data = none →
      getTransactionData lib data = .ok (legacyTxOf lib data) ∧
      (legacyTxOf lib data).GasPrice = copyBig (SetString s)) ∧
    (∀ s, data.max_priority_fee_per_gas = some s → checkData lib data = none →
      checkValue lib data = none → checkNonce data = none → checkGasLimit data = none →
      checkFeeCap data = none → checkTo data = none →
      getEIP1559TransactionData lib data = .ok (dynamicFeeTxOf lib data) ∧
      (dynamicFeeTxOf lib data).GasTipCap = copyBig (SetString s)) ∧
    (∀ s, data.max_fee_per_gas = some s → checkData lib data = none →
      checkValue lib data = none → checkNonce data = none → checkGasLimit data = none →
      checkTip data = none → checkTo data = none →
      getEIP1559TransactionData lib data = .ok (dynamicFeeTxOf lib data) ∧
      (dynamicFeeTxOf lib data).GasFeeCap = copyBig (SetString s)) := by
  refine ⟨?_, ?_, ?_⟩
  · intro s hs h1 h2 h3 h4 h5 h6
    have hp : checkGasPrice data = none := by simp [checkGasPrice, hs]
    refine ⟨?_, ?_⟩
    · rw [getTransactionData_eq]
      simp [legacyChecks, firstFailure, h1, h2, h3, h4, h5, h6, hp]
    · cases hx : SetString s <;>
        simp [legacyTxOf, NewTx, LegacyTx.copy, Transaction.GasPrice, copyBig, hs, Get, hx]
  · intro s hs h1 h2 h3 h4 h5 h6
    have hp : checkTip data = none := by simp [checkTip, hs]
    refine ⟨?_, ?_⟩
    · rw [getEIP1559TransactionData_eq]
      simp [dynamicFeeChecks, firstFailure, h1, h2, h3, h4, h5, h6, hp]
    · cases hx : SetString s <;>
        simp [dynamicFeeTxOf, NewTx, DynamicFeeTx.copy, Transaction.GasTipCap, copyBig,
          hs, Get, hx]
  · intro s hs h1 h2 h3 h4 h5 h6
    have hp : checkFeeCap data = none := by simp [checkFeeCap, hs]
    refine ⟨?_, ?_⟩
    · rw [getEIP1559TransactionData_eq]
      simp [dynamicFeeChecks, firstFailure, h1, h2, h3, h4, h5, h6, hp]
    · cases hx : SetString s <;>
        simp [dynamicFeeTxOf, NewTx, DynamicFeeTx.copy, Transaction.GasFeeCap, copyBig,
          hs, Get, hx]

/-! ## C4 -/

/-- C4 (the code departs from the claim). A field bag that omits `gas_limit` is
never built into a transaction: both builders return an error, and when every
other check passes the error is `Gas limit not specified`.  The default 21000
of the schema is not applied. -/
theorem gas_limit_omitted_rejected (lib : Lib) (data : FieldData)
    (h : data.gas_limit = none) :
    (∃ e, getTransactionData lib data = .error e) ∧
    (∃ e, getEIP1559TransactionData lib data = .error e) ∧
    (checkData lib data = none → checkChainId data = none → checkValue lib data = none →
      checkNonce data = none →
      getTransactionData lib data = .error "Gas limit not specified") ∧
    (checkData lib data = none → checkValue lib data = none → checkNonce data = none →
      getEIP1559TransactionData lib data = .error "Gas limit not specified") := by
  have hg : checkGasLimit data = some "Gas limit not specified" := by simp [checkGasLimit, h]
  refine ⟨?_, ?_, ?_, ?_⟩
  · exact legacy_error_of_failed_check lib data "Gas limit not specified"
      (by simp [legacyChecks, hg])
  · exact dynamicFee_error_of_failed_check lib data "Gas limit not specified"
      (by simp [dynamicFeeChecks, hg])
  · intro h1 h2 h3 h4
    rw [getTransactionData_eq]
    simp [legacyChecks, firstFailure, h1, h2, h3, h4, hg]
  · intro h1 h3 h4
    rw [getEIP1559TransactionData_eq]
    simp [dynamicFeeChecks, firstFailure, h1, h3, h4, hg]

/-- C4, at a request: the complete legacy and dynamic-fee requests with
`gas_limit` left out are answered with `Gas limit not specified`. -/
theorem gas_limit_omitted_rejected_witness :
    getTransactionData sampleLib { legacyBag with gas_limit := none } =
      .error "Gas limit not specified" ∧
    getEIP1559TransactionData sampleLib { dynamicFeeBag with gas_limit := none } =
      .error "Gas limit not specified" ∧
    (∃ e, getTransactionData sampleLib { legacyBag with gas_limit := none } = .error e) := by
  have h := gas_limit_omitted_rejected sampleLib { legacyBag with gas_limit := none } rfl
  have h2 := gas_limit_omitted_rejected sampleLib { dynamicFeeBag with gas_limit := none } rfl
  exact ⟨h.2.2.1 (by decide) (by decide) (by decide) (by decide),
    h2.2.2.2 (by decide) (by decide) (by decide), h.1⟩

/-! ## C5 -/

/-- C5 (the code departs from the claim). A fee field that is not a decimal
integer, or is a negative one, does not stop the builders: with `gas_price`
`abc` the legacy builder returns a transaction of gas price 0, with `-5` one of
gas price -5; the dynamic-fee builder does the same for
`max_priority_fee_per_gas` and `max_fee_per_gas`.  Only `value` is checked: the
same request with `value` `abc` is answered with `invalid value`. -/
theorem malformed_fee_accepted :
    (∃ tx, getTransactionData sampleLib { legacyBag with gas_price := some "abc" } = .ok tx ∧
      tx.GasPrice = 0) ∧
    (∃ tx, getTransactionData sampleLib { legacyBag with gas_price := some "-5" } = .ok tx ∧
      tx.GasPrice = -5) ∧
    (∃ tx, getEIP1559TransactionData sampleLib
        { dynamicFeeBag with max_priority_fee_per_gas := some "abc" } = .ok tx ∧
      tx.GasTipCap = 0) ∧
    (∃ tx, getEIP1559TransactionData sampleLib
        { dynamicFeeBag with max_fee_per_gas := some "-1" } = .ok tx ∧
      tx.GasFeeCap = -1) ∧
    getTransactionData sampleLib { legacyBag with value := some "abc" } =
      .error "invalid value" ∧
    getTransactionData sampleLib { legacyBag with value := some "-5" } =
      .error "invalid value" := by
  refine ⟨⟨_, rfl, ?_⟩, ⟨_, rfl, ?_⟩, ⟨_, rfl, ?_⟩, ⟨_, rfl, ?_⟩, ?_, ?_⟩ <;>
    rfl

/-! ## C6 -/

/-- C6. A field bag without `to` or without `nonce` makes both builders return an
error and no transaction.  When every other check passes, the error names the
missing field (`To address not specified`, `Nonce not specified`).  In general
the result of a builder is the error of the first failing check in its fixed
order (legacy: data, chain_id, value, nonce, gas_limit, gas_price, to;
dynamic-fee: data, value, nonce, gas_limit, max_priority_fee_per_gas,
max_fee_per_gas, to), and a transaction only when no check fails. -/
theorem missing_to_or_nonce_rejected (lib : Lib) (data : FieldData) :
    ((data.to_ = none ∨ data.nonce = none) →
      (∃ e, getTransactionData lib data = .error e) ∧
      (∃ e, getEIP1559TransactionData lib data = .error e)) ∧
    (data.to_ = none → checkData lib data = none → checkChainId data = none →
      checkValue lib data = none → checkNonce data = none → checkGasLimit data = none →
      checkGasPrice data = none →
      getTransactionData lib data = .error "To address not specified") ∧
    (data.nonce = none → checkData lib data = none → checkChainId data = none →
      checkValue lib data = none → checkGasLimit data = none → checkGasPrice data = none →
      checkTo data = none →
      getTransactionData lib data = .error "Nonce not specified") ∧
    (data.to_ = none → checkData lib data = none → checkValue lib data = none →
      checkNonce data = none → checkGasLimit data = none → checkTip data = none →
      checkFeeCap data = none →
      getEIP1559TransactionData lib data = .error "To address not specified") ∧
    (data.nonce = none → checkData lib data = none → checkValue lib data = none →
      checkGasLimit data = none → checkTip data = none → checkFeeCap data = none →
      checkTo data = none →
      getEIP1559TransactionData lib data = .error "Nonce not specified") ∧
    (getTransactionData lib data =
      match firstFailure (legacyChecks lib data) with
      | some e => .error e
      | none => .ok (legacyTxOf lib data)) ∧
    (getEIP1559TransactionData lib data =
      match firstFailure (dynamicFeeChecks lib data) with
      | some e => .error e
      | none => .ok (dynamicFeeTxOf lib data)) := by
  refine ⟨?_, ?_, ?_, ?_, ?_, getTransactionData_eq lib data,
    getEIP1559TransactionData_eq lib data⟩
  · rintro (h | h)
    · have ht : checkTo data = some "To address not specified" := by simp [checkTo, h]
      exact ⟨legacy_error_of_failed_check lib data "To address not specified"
          (by simp [legacyChecks, ht]),
        dynamicFee_error_of_failed_check lib data "To address not specified"
          (by simp [dynamicFeeChecks, ht])⟩
    · have hn : checkNonce data = some "Nonce not specified" := by simp [checkNonce, h]
      exact ⟨legacy_error_of_failed_check lib data "Nonce not specified"
          (by simp [legacyChecks, hn]),
        dynamicFee_error_of_failed_check lib data "Nonce not specified"
          (by simp [dynamicFeeChecks, hn])⟩
  · intro h h1 h2 h3 h4 h5 h6
    have ht : checkTo data = some "To address not specified" := by simp [checkTo, h]
    rw [getTransactionData_eq]
    simp [legacyChecks, firstFailure, h1, h2, h3, h4, h5, h6, ht]
  · intro h h1 h2 h3 h5 h6 h7
    have hn : checkNonce data = some "Nonce not specified" := by simp [checkNonce, h]
    rw [getTransactionData_eq]
    simp [legacyChecks, firstFailure, h1, h2, h3, hn]
  · intro h h1 h2 h3 h4 h5 h6
    have ht : checkTo data = some "To address not specified" := by simp [checkTo, h]
    rw [getEIP1559TransactionData_eq]
    simp [dynamicFeeChecks, firstFailure, h1, h2, h3, h4, h5, h6, ht]
  · intro h h1 h2 h3 h5 h6 h7
    have hn : checkNonce data = some "Nonce not specified" := by simp [checkNonce, h]
    rw [getEIP1559TransactionData_eq]
    simp [dynamicFeeChecks, firstFailure, h1, h2, hn]

/-- C6, at requests: the complete legacy request without `to` is answered with
`To address not specified`, without `nonce` with `Nonce not specified`, and
without both with `Nonce not specified`, the earlier check. -/
theorem missing_to_or_nonce_rejected_witness :
    getTransactionData sampleLib { legacyBag with to_ := none } =
      .error "To address not specified" ∧
    getTransactionData sampleLib { legacyBag with nonce := none } =
      .error "Nonce not specified" ∧
    getEIP1559TransactionData sampleLib { dynamicFeeBag with to_ := none } =
      .error "To address not specified" ∧
    getEIP1559TransactionData sampleLib { dynamicFeeBag with nonce := none } =
      .error "Nonce not specified" ∧
    getTransactionData sampleLib { legacyBag with to_ := none, nonce := none } =
      .error "Nonce not specified" :=
  ⟨(missing_to_or_nonce_rejected sampleLib { legacyBag with to_ := none }).2.1
      rfl rfl rfl rfl rfl rfl rfl,
    (missing_to_or_nonce_rejected sampleLib { legacyBag with nonce := none }).2.2.1
      rfl rfl rfl rfl rfl rfl rfl,
    (missing_to_or_nonce_rejected sampleLib { dynamicFeeBag with to_ := none }).2.2.2.1
      rfl rfl rfl rfl rfl rfl rfl,
    (missing_to_or_nonce_rejected sampleLib { dynamicFeeBag with nonce := none }).2.2.2.2.1
      rfl rfl rfl rfl rfl rfl rfl,
    ((missing_to_or_nonce_rejected sampleLib
      { legacyBag with to_ := none, nonce := none }).2.2.2.2.2.1).trans rfl⟩

/-! ## C7 -/

/-- C7. The legacy builder requires a non-zero chain ID: when `chain_id` is
absent or 0 it returns an error and no transaction, and when `chain_id` is any
other number and every other check passes it returns the transaction. -/
theorem legacy_requires_nonzero_chain_id (lib : Lib) (data : FieldData) :
    ((data.chain_id = none ∨ data.chain_id = some 0) →
      ∃ e, getTransactionData lib data = .error e) ∧
    (data.chain_id = none → checkData lib data = none →
      getTransactionData lib data = .error "Chain ID not specified") ∧
    (data.chain_id = some 0 → checkData lib data = none →
      getTransactionData lib data = .error "invalid chain id") ∧
    (∀ c : Int, data.chain_id = some c → c ≠ 0 → checkData lib data = none →
      checkValue lib data = none → checkNonce data = none → checkGasLimit data = none →
      checkGasPrice data = none → checkTo data = none →
      getTransactionData lib data = .ok (legacyTxOf lib data)) := by
  refine ⟨?_, ?_, ?_, ?_⟩
  · rintro (h | h)
    · exact legacy_error_of_failed_check lib data "Chain ID not specified"
        (by simp [legacyChecks, checkChainId, h])
    · exact legacy_error_of_failed_check lib data "invalid chain id"
        (by simp [legacyChecks, checkChainId, h])
  · intro h h1
    rw [getTransactionData_eq]
    simp [legacyChecks, firstFailure, checkChainId, h, h1]
  · intro h h1
    rw [getTransactionData_eq]
    simp [legacyChecks, firstFailure, checkChainId, h, h1]
  · intro c h hc h1 h3 h4 h5 h6 h7
    have h2 : checkChainId data = none := by simp [checkChainId, h, hc]
    rw [getTransactionData_eq]
    simp [legacyChecks, firstFailure, h1, h2, h3, h4, h5, h6, h7]

/-- C7, at requests: the complete legacy request is built with `chain_id` 1 and
rejected with `chain_id` 0 or without `chain_id`. -/
theorem legacy_requires_nonzero_chain_id_witness :
    getTransactionData sampleLib legacyBag = .ok (legacyTxOf sampleLib legacyBag) ∧
    getTransactionData sampleLib { legacyBag with chain_id := some 0 } =
      .error "invalid chain id" ∧
    getTransactionData sampleLib { legacyBag with chain_id := none } =
      .error "Chain ID not specified" :=
  ⟨(legacy_requires_nonzero_chain_id sampleLib legacyBag).2.2.2 1 rfl (by decide)
      rfl rfl rfl rfl rfl rfl,
    (legacy_requires_nonzero_chain_id sampleLib { legacyBag with chain_id := some 0 }).2.2.1
      rfl rfl,
    (legacy_requires_nonzero_chain_id sampleLib { legacyBag with chain_id := none }).2.1
      rfl rfl⟩

/-! ## C8 -/

/-- C8. A fee field supplied as the empty text, in a bag that passes every
other check, gives a transaction that carries 0 for that fee (`gas_price` in the
legacy builder, `max_priority_fee_per_gas` and `max_fee_per_gas` in the
dynamic-fee builder): `SetString` fails on the empty text and leaves a nil
pointer, and the copy `NewTx` stores holds 0 in that field, which is what the
accessor returns.  A fee field that is absent makes the builder return an error
and no transaction. -/
theorem empty_fee_is_zero_absent_fee_rejected (lib : Lib) (data : FieldData) :
    SetString "" = none ∧ copyBig none = 0 ∧
    (data.gas_price = some "" → checkData lib data = none → checkChainId data = none →
      checkValue lib data = none → checkNonce data = none → checkGasLimit data = none →
      checkTo data = none →
      ∃ tx, getTransactionData lib data = .ok tx ∧ tx.GasPrice = 0 ∧
        ∃ t, tx.inner = .legacy t ∧ t.GasPrice = 0) ∧
    (data.gas_price = none → ∃ e, getTransactionData lib data = .error e) ∧
    (data.max_priority_fee_per_gas = some "" → checkData lib data = none →
      checkValue lib data = none → checkNonce data = none → checkGasLimit data = none →
      checkFeeCap data = none → checkTo data = none →
      ∃ tx, getEIP1559TransactionData lib data = .ok tx ∧ tx.GasTipCap = 0 ∧
        ∃ t, tx.inner = .dynamicFee t ∧ t.GasTipCap = 0) ∧
    (data.max_priority_fee_per_gas = none →
      ∃ e, getEIP1559TransactionData lib data = .error e) ∧
    (data.max_fee_per_gas = some "" → checkData lib data = none →
      checkValue lib data = none → checkNonce data = none → checkGasLimit data = none →
      checkTip data = none → checkTo data = none →
      ∃ tx, getEIP1559TransactionData lib data = .ok tx ∧ tx.GasFeeCap = 0 ∧
        ∃ t, tx.inner = .dynamicFee t ∧ t.GasFeeCap = 0) ∧
    (data.max_fee_per_gas = none →
      ∃ e, getEIP1559TransactionData lib data = .error e) := by
  have hempty : SetString "" = none := by decide
  have hcopy : copyBig none = 0 := rfl
  obtain ⟨f1, f2, f3⟩ := fee_text_not_validated lib data
  refine ⟨hempty, hcopy, ?_, ?_, ?_, ?_, ?_, ?_⟩
  · intro h h1 h2 h3 h4 h5 h6
    obtain ⟨e1, e2⟩ := f1 "" h h1 h2 h3 h4 h5 h6
    refine ⟨_, e1, by rw [e2, hempty, hcopy], _, rfl, ?_⟩
    simp only [LegacyTx.copy, Get, h, hempty, hcopy]
  · intro h
    exact legacy_error_of_failed_check lib data "Gas price not specified"
      (by simp [legacyChecks, checkGasPrice, h])
  · intro h h1 h2 h3 h4 h5 h6
    obtain ⟨e1, e2⟩ := f2 "" h h1 h2 h3 h4 h5 h6
    refine ⟨_, e1, by rw [e2, hempty, hcopy], _, rfl, ?_⟩
    simp only [DynamicFeeTx.copy, Get, h, hempty, hcopy]
  · intro h
    exact dynamicFee_error_of_failed_check lib data "Gas limit not specified"
      (by simp [dynamicFeeChecks, checkTip, h])
  · intro h h1 h2 h3 h4 h5 h6
    obtain ⟨e1, e2⟩ := f3 "" h h1 h2 h3 h4 h5 h6
    refine ⟨_, e1, by rw [e2, hempty, hcopy], _, rfl, ?_⟩
    simp only [DynamicFeeTx.copy, Get, h, hempty, hcopy]
  · intro h
    exact dynamicFee_error_of_failed_check lib data "Gas limit not specified"
      (by simp [dynamicFeeChecks, checkFeeCap, h])

/-- C8, at requests: with `gas_price` empty the complete legacy request is built
into a transaction whose stored gas price is 0, and without `gas_price` it is
rejected; the same for `max_fee_per_gas` in the dynamic-fee request. -/
theorem empty_fee_is_zero_absent_fee_rejected_witness :
    (∃ tx, getTransactionData sampleLib { legacyBag with gas_price := some "" } = .ok tx ∧
      tx.GasPrice = 0 ∧ ∃ t, tx.inner = .legacy t ∧ t.GasPrice = 0) ∧
    (∃ e, getTransactionData sampleLib { legacyBag with gas_price := none } = .error e) ∧
    (∃ tx, getEIP1559TransactionData sampleLib
        { dynamicFeeBag with max_fee_per_gas := some "" } = .ok tx ∧
      tx.GasFeeCap = 0 ∧ ∃ t, tx.inner = .dynamicFee t ∧ t.GasFeeCap = 0) ∧
    (∃ e, getEIP1559TransactionData sampleLib
        { dynamicFeeBag with max_fee_per_gas := none } = .error e) :=
  ⟨(empty_fee_is_zero_absent_fee_rejected sampleLib
      { legacyBag with gas_price := some "" }).2.2.1 rfl rfl rfl rfl rfl rfl rfl,
    (empty_fee_is_zero_absent_fee_rejected sampleLib
      { legacyBag with gas_price := none }).2.2.2.1 rfl,
    (empty_fee_is_zero_absent_fee_rejected sampleLib
      { dynamicFeeBag with max_fee_per_gas := some "" }).2.2.2.2.2.2.1
      rfl rfl rfl rfl rfl rfl rfl,
    (empty_fee_is_zero_absent_fee_rejected sampleLib
      { dynamicFeeBag with max_fee_per_gas := none }).2.2.2.2.2.2.2 rfl⟩

/-! ## C9 -/

/-- C9. The dynamic-fee path never reads the supplied `chain_id`: whenever
`getEIP1559TransactionData` returns a transaction, its chain ID is 0 and the
same transaction is returned whatever `chain_id` the bag carries; with the
account read and the wallet derived, `pathSignEIP1559Tx` is the call of the
signer with chain ID 0 followed by a response whose `chainId` is 0, and every
response the handler returns has `chainId` 0. -/
theorem dynamicFee_chain_id_is_zero (lib : Lib) (data : FieldData) (tx : Transaction)
    (h : getEIP1559TransactionData lib data = .ok tx) :
    tx.ChainId = 0 ∧
    (∀ c : Option Int, getEIP1559TransactionData lib { data with chain_id := c } = .ok tx) ∧
    (∀ (req : Request) (accountJSON : AccountJSON) (wallet : Wallet) (account : Account),
      readAccount req (Get data.name "") = .ok (some accountJSON) →
      getWalletAndAccount lib accountJSON = .ok (wallet, account) →
      pathSignEIP1559Tx lib req data =
        match lib.SignTx wallet account tx 0 with
        | .error err => .error err
        | .ok signedTx =>
            .ok (some (.signedTx 0 signedTx (hexutilEncode (lib.EncodeRLP signedTx))))) ∧
    (∀ (req : Request) (chainId : Int) (signedTx : Transaction) (rlp : String),
      pathSignEIP1559Tx lib req data = .ok (some (.signedTx chainId signedTx rlp)) →
      chainId = 0) := by
  have htx : tx = dynamicFeeTxOf lib data := by
    rw [getEIP1559TransactionData_eq] at h
    cases hf : firstFailure (dynamicFeeChecks lib data) with
    | none => rw [hf] at h; exact (Except.ok.inj h).symm
    | some e => rw [hf] at h; cases h
  have hz : tx.ChainId = 0 := by
    rw [htx]
    simp [dynamicFeeTxOf, NewTx, DynamicFeeTx.copy, Transaction.ChainId, copyBig]
  refine ⟨hz, ?_, ?_, ?_⟩
  · intro c
    rw [← h, getEIP1559TransactionData_eq, getEIP1559TransactionData_eq]
    rfl
  · intro req accountJSON wallet account h1 h2
    simp only [pathSignEIP1559Tx, h1, h2, h, hz]
  · intro req chainId signedTx rlp hr
    simp only [pathSignEIP1559Tx, h, hz] at hr
    split at hr
    · cases hr
    · cases hr
    · split at hr
      · cases hr
      · cases hr
      · split at hr
        · cases hr
        · simp only [Outcome.ok.injEq, Option.some.injEq, Response.signedTx.injEq] at hr
          exact hr.1.symm

/-- C9, at a request: the dynamic-fee request that carries `chain_id` 5 is built
into a transaction of chain ID 0 and signed into a response of `chainId` 0. -/
theorem dynamicFee_chain_id_is_zero_witness :
    dynamicFeeBag.chain_id = some 5 ∧
    getEIP1559TransactionData sampleLib dynamicFeeBag =
      .ok (dynamicFeeTxOf sampleLib dynamicFeeBag) ∧
    (dynamicFeeTxOf sampleLib dynamicFeeBag).ChainId = 0 ∧
    (∃ signedTx rlp,
      pathSignEIP1559Tx sampleLib (exampleRequest "accounts/alice/sign-1559-tx" none)
          dynamicFeeBag =
        .ok (some (.signedTx 0 signedTx rlp))) :=
  ⟨rfl, rfl,
    (dynamicFee_chain_id_is_zero sampleLib dynamicFeeBag
      (dynamicFeeTxOf sampleLib dynamicFeeBag) rfl).1,
    ⟨_, _, rfl⟩⟩

/-! ## C10 -/

/-- C10. With the account read and the wallet derived, `pathSignMessage` hands
the signer the Keccak-256 hash of the bytes 0x19, `Ethereum Signed Message:`,
a line feed, the decimal length in bytes of the message, and the message; the
`hashedMessage` of the response is the hexadecimal text of that same hash. -/
theorem signMessage_hashes_prefixed_text (lib : Lib) (req : Request) (data : FieldData)
    (accountJSON : AccountJSON) (wallet : Wallet) (account : Account)
    (h1 : readAccount req (Get data.name "") = .ok (some accountJSON))
    (h2 : getWalletAndAccount lib accountJSON = .ok (wallet, account)) :
    signedMessageText (stringBytes (Get data.message "")) =
      25 :: (stringBytes "Ethereum Signed Message:\n" ++
        stringBytes (toString (stringBytes (Get data.message "")).length) ++
        stringBytes (Get data.message "")) ∧
    pathSignMessage lib req data =
      match lib.SignHash wallet account
          (lib.Keccak256 (signedMessageText (stringBytes (Get data.message "")))) with
      | .error err => .error err
      | .ok signedMessage =>
          .ok (some (.signedMessage (hexutilEncode signedMessage) account.Address
            (hexutilEncode
              (lib.Keccak256 (signedMessageText (stringBytes (Get data.message ""))))))) := by
  refine ⟨?_, ?_⟩
  · have hp : stringBytes "\x19Ethereum Signed Message:\n" =
        25 :: stringBytes "Ethereum Signed Message:\n" := by decide
    simp only [signedMessageText, hp, List.cons_append]
  · simp only [pathSignMessage, h1, h2, TextAndHash]

/-- C10, at a request: for the message `hello` the hashed text is
`\x19Ethereum Signed Message:\n5hello`, and the response of `pathSignMessage`
carries the hexadecimal text of its hash. -/
theorem signMessage_hashes_prefixed_text_witness :
    signedMessageText (stringBytes "hello") =
      stringBytes "\x19Ethereum Signed Message:\n5hello" ∧
    (∃ signature address,
      pathSignMessage sampleLib (exampleRequest "accounts/alice/sign" none)
          { FieldData.empty with name := some "alice", message := some "hello" } =
        .ok (some (.signedMessage signature address
          (hexutilEncode (sampleLib.Keccak256
            (stringBytes "\x19Ethereum Signed Message:\n5hello")))))) := by
  have h := (signMessage_hashes_prefixed_text sampleLib
    (exampleRequest "accounts/alice/sign" none)
    { FieldData.empty with name := some "alice", message := some "hello" }
    { Index := 0, Mnemonic := exampleMnemonic } _ _ rfl rfl).2
  refine ⟨by decide, ?_⟩
  rw [h]
  exact ⟨_, _, rfl⟩

/-! ## C11 -/

/-- C11 (the code departs from the claim). With no record under
`accounts/name`, `pathAccountsRead`, `pathSignTx`, `pathSignEIP1559Tx` and
`pathSignMessage` do not return an error: `readAccount` gives a nil record
without an error, and each handler stops on the nil dereference of that
record. -/
theorem missing_account_panics (lib : Lib) (req : Request) (data : FieldData)
    (h : req.Storage.Get (QualifiedPath ("accounts/" ++ Get data.name "")) = .ok none) :
    readAccount req (Get data.name "") = .ok none ∧
    pathAccountsRead lib req data = .panic nilDereference ∧
    pathSignTx lib req data = .panic nilDereference ∧
    pathSignEIP1559Tx lib req data = .panic nilDereference ∧
    pathSignMessage lib req data = .panic nilDereference := by
  have hr : readAccount req (Get data.name "") = .ok none := by
    simp only [readAccount, h]
  refine ⟨hr, ?_, ?_, ?_, ?_⟩
  · simp only [pathAccountsRead, hr]
  · simp only [pathSignTx, hr]
  · simp only [pathSignEIP1559Tx, hr]
  · simp only [pathSignMessage, hr]

/-- C11, at a request: the store holds `alice` and no `bob`; reading `bob` and
signing a complete legacy request as `bob` both stop on the nil dereference. -/
theorem missing_account_panics_witness :
    pathAccountsRead sampleLib (requestOn exampleStorage "accounts/bob") (nameOnly "bob") =
      .panic nilDereference ∧
    pathSignTx sampleLib (requestOn exampleStorage "accounts/bob/sign-tx")
        { legacyBag with name := some "bob" } = .panic nilDereference ∧
    pathSignMessage sampleLib (requestOn exampleStorage "accounts/bob/sign")
        { nameOnly "bob" with message := some "hello" } = .panic nilDereference :=
  ⟨(missing_account_panics sampleLib (requestOn exampleStorage "accounts/bob")
      (nameOnly "bob") rfl).2.1,
    (missing_account_panics sampleLib (requestOn exampleStorage "accounts/bob/sign-tx")
      { legacyBag with name := some "bob" } rfl).2.2.1,
    (missing_account_panics sampleLib (requestOn exampleStorage "accounts/bob/sign")
      { nameOnly "bob" with message := some "hello" } rfl).2.2.2.2⟩

/-! ## Reading back what the store holds -/

theorem find_filter_same (l : List (String × StorageEntry)) (key : String) :
    (l.filter (fun kv => kv.1 ≠ key)).find? (fun kv => kv.1 = key) = none := by
  induction l with
  | nil => rfl
  | cons x xs ih =>
      by_cases hx : x.1 = key
      · rw [List.filter_cons_of_neg (by simpa using hx)]
        exact ih
      · rw [List.filter_cons_of_pos (by simpa using hx),
          List.find?_cons_of_neg _ (by simpa using hx)]
        exact ih

theorem Get_Put_same (s s' : Storage) (key : String) (entry : StorageEntry)
    (hp : s.Put key entry = .ok s') : s'.Get key = .ok (some entry) := by
  simp only [Storage.Put, Except.ok.injEq] at hp
  subst hp
  simp [Storage.Get, List.find?]

theorem Get_Delete_same (s s' : Storage) (key : String) (hd : s.Delete key = .ok s') :
    s'.Get key = .ok none := by
  simp only [Storage.Delete, Except.ok.injEq] at hd
  subst hd
  simp only [Storage.Get, find_filter_same, Option.map_none']

/-! ## C12 -/

theorem pathAccountsCreate_eq (lib : Lib) (bip : Bip39) (req : Request) (data : FieldData) :
    pathAccountsCreate lib bip req data =
      match chosenMnemonic bip data with
      | .error err => (.error err, req.Storage)
      | .ok m =>
          match getWalletAndAccount lib { Index := Get data.index 0, Mnemonic := m } with
          | .error err => (.error err, req.Storage)
          | .panic reason => (.panic reason, req.Storage)
          | .ok (_, account) =>
              match updateAccount req (Get data.name "")
                  { Index := Get data.index 0, Mnemonic := m } with
              | .error err => (.error err, req.Storage)
              | .ok written => (.ok (some (.address (lib.Hex account.Address))), written) :=
  rfl

theorem pathAccountsCreate_returns (lib : Lib) (bip : Bip39) (req : Request)
    (data : FieldData) (resp : Option Response) (written : Storage)
    (h : pathAccountsCreate lib bip req data = (.ok resp, written)) :
    ∃ m wallet account, chosenMnemonic bip data = .ok m ∧
      getWalletAndAccount lib { Index := Get data.index 0, Mnemonic := m } =
        .ok (wallet, account) ∧
      updateAccount req (Get data.name "") { Index := Get data.index 0, Mnemonic := m } =
        .ok written ∧
      resp = some (.address (lib.Hex account.Address)) := by
  rw [pathAccountsCreate_eq] at h
  cases hc : chosenMnemonic bip data with
  | error err => rw [hc] at h; cases h
  | ok m =>
      rw [hc] at h
      cases hg : getWalletAndAccount lib { Index := Get data.index 0, Mnemonic := m } with
      | error err => simp only [hg] at h; cases h
      | panic reason => simp only [hg] at h; cases h
      | ok wa =>
          obtain ⟨wallet, account⟩ := wa
          simp only [hg, updateAccount, Storage.Put, Prod.mk.injEq, Outcome.ok.injEq] at h
          exact ⟨m, wallet, account, rfl, hg, by rw [← h.2]; rfl, h.1.symm⟩

/-- C12 (the code departs from the claim). Account creation writes only after
validation: when the mnemonic is refused (`NewFromMnemonic` returns an error) or
the key derivation fails in `Derive`, `pathAccountsCreate` returns that error
and leaves the store as it was; the same holds when no entropy can be read.
When the derivation fails because the path of the index does not parse, the
handler does not return an error: `MustParseDerivationPath` panics.  Whenever
the handler does not return a response the store is unchanged, the panic
included, and whenever it returns a response the derivation had succeeded and
the store is the one `updateAccount` wrote the record to. -/
theorem create_writes_only_after_derivation (lib : Lib) (bip : Bip39) (req : Request)
    (data : FieldData) :
    (∀ err, chosenMnemonic bip data = .error err →
      pathAccountsCreate lib bip req data = (.error err, req.Storage)) ∧
    (∀ m err, chosenMnemonic bip data = .ok m → lib.NewFromMnemonic m = .error err →
      pathAccountsCreate lib bip req data = (.error err, req.Storage)) ∧
    (∀ m wallet path err, chosenMnemonic bip data = .ok m →
      lib.NewFromMnemonic m = .ok wallet →
      lib.ParseDerivationPath (derivationPath (Get data.index 0)) = .ok path →
      lib.Derive wallet path = .error err →
      pathAccountsCreate lib bip req data = (.error err, req.Storage)) ∧
    (∀ m wallet err, chosenMnemonic bip data = .ok m →
      lib.NewFromMnemonic m = .ok wallet →
      lib.ParseDerivationPath (derivationPath (Get data.index 0)) = .error err →
      pathAccountsCreate lib bip req data = (.panic err, req.Storage)) ∧
    ((∀ resp, (pathAccountsCreate lib bip req data).1 ≠ .ok resp) →
      (pathAccountsCreate lib bip req data).2 = req.Storage) ∧
    (∀ resp written, pathAccountsCreate lib bip req data = (.ok resp, written) →
      ∃ m wallet account, chosenMnemonic bip data = .ok m ∧
        getWalletAndAccount lib { Index := Get data.index 0, Mnemonic := m } =
          .ok (wallet, account) ∧
        updateAccount req (Get data.name "") { Index := Get data.index 0, Mnemonic := m } =
          .ok written ∧
        resp = some (.address (lib.Hex account.Address))) := by
  refine ⟨?_, ?_, ?_, ?_, ?_, ?_⟩
  · intro err h
    rw [pathAccountsCreate_eq, h]
  · intro m err h hm
    rw [pathAccountsCreate_eq, h]
    simp only [getWalletAndAccount, hm]
  · intro m wallet path err h hm hp hd
    rw [pathAccountsCreate_eq, h]
    simp only [derivationPath] at hp
    simp only [getWalletAndAccount, hm, hp, hd]
  · intro m wallet err h hm hp
    rw [pathAccountsCreate_eq, h]
    simp only [derivationPath] at hp
    simp only [getWalletAndAccount, hm, hp]
  · intro hno
    rw [pathAccountsCreate_eq] at hno ⊢
    cases hc : chosenMnemonic bip data with
    | error err => rfl
    | ok m =>
        rw [hc] at hno
        cases hg : getWalletAndAccount lib { Index := Get data.index 0, Mnemonic := m } with
        | error err => simp only [hg]
        | panic reason => simp only [hg]
        | ok wa =>
            obtain ⟨wallet, account⟩ := wa
            simp only [hg, updateAccount, Storage.Put] at hno
            exact absurd rfl (hno _)
  · intro resp written h
    exact pathAccountsCreate_returns lib bip req data resp written h

/-- C12, at requests: on the store that holds `alice`, creating `bob` with the
twelve-word mnemonic and index -1, or index 4294967296, ends in a panic, not in
an error, and the store is as before; with a mnemonic of two words the create is
answered with `mnemonic is invalid`, the store as before; with the twelve-word
mnemonic and index 0 it writes his record. -/
theorem create_writes_only_after_derivation_witness :
    (∃ reason,
      pathAccountsCreate sampleLib sampleBip39 (requestOn exampleStorage "accounts/bob")
          { nameOnly "bob" with mnemonic := some exampleMnemonic, index := some (-1) } =
        (.panic reason, exampleStorage)) ∧
    (∃ reason,
      pathAccountsCreate sampleLib sampleBip39 (requestOn exampleStorage "accounts/bob")
          { nameOnly "bob" with mnemonic := some exampleMnemonic,
                                index := some 4294967296 } =
        (.panic reason, exampleStorage)) ∧
    pathAccountsCreate sampleLib sampleBip39 (requestOn exampleStorage "accounts/bob")
        { nameOnly "bob" with mnemonic := some "a b" } =
      (.error "mnemonic is invalid", exampleStorage) ∧
    (pathAccountsCreate sampleLib sampleBip39 (requestOn exampleStorage "accounts/bob")
        { nameOnly "bob" with mnemonic := some exampleMnemonic }).2.Get "accounts/bob" =
      .ok (some (.account { Index := 0, Mnemonic := exampleMnemonic })) :=
  ⟨⟨_, (create_writes_only_after_derivation sampleLib sampleBip39
      (requestOn exampleStorage "accounts/bob")
      { nameOnly "bob" with mnemonic := some exampleMnemonic, index := some (-1) }).2.2.2.1
      exampleMnemonic { mnemonic := exampleMnemonic, seed := stringBytes exampleMnemonic }
      "invalid component" rfl rfl rfl⟩,
    ⟨_, (create_writes_only_after_derivation sampleLib sampleBip39
      (requestOn exampleStorage "accounts/bob")
      { nameOnly "bob" with mnemonic := some exampleMnemonic,
                            index := some 4294967296 }).2.2.2.1
      exampleMnemonic { mnemonic := exampleMnemonic, seed := stringBytes exampleMnemonic }
      "component out of allowed range" rfl rfl rfl⟩,
    (create_writes_only_after_derivation sampleLib sampleBip39
      (requestOn exampleStorage "accounts/bob")
      { nameOnly "bob" with mnemonic := some "a b" }).2.1 "a b" "mnemonic is invalid" rfl rfl,
    rfl⟩

/-! ## C13 -/

/-- C13. Create-then-read round trip: when `pathAccountsCreate` returns a
response, the store it leaves holds under `accounts/name` the record of the
index and of the mnemonic (the supplied one, or the generated one when none was
supplied), the response is the address derived from that record, and
`pathAccountsRead` of the same name on that store returns the same response. -/
theorem create_then_read (lib : Lib) (bip : Bip39) (req : Request) (data : FieldData)
    (resp : Option Response) (written : Storage)
    (h : pathAccountsCreate lib bip req data = (.ok resp, written)) :
    ∃ m wallet account, chosenMnemonic bip data = .ok m ∧
      (Get data.mnemonic "" ≠ "" → m = Get data.mnemonic "") ∧
      getWalletAndAccount lib { Index := Get data.index 0, Mnemonic := m } =
        .ok (wallet, account) ∧
      resp = some (.address (lib.Hex account.Address)) ∧
      written.Get (QualifiedPath ("accounts/" ++ Get data.name "")) =
        .ok (some (.account { Index := Get data.index 0, Mnemonic := m })) ∧
      (∀ (readReq : Request) (readData : FieldData), readReq.Storage = written →
        Get readData.name "" = Get data.name "" →
        pathAccountsRead lib readReq readData = .ok resp) := by
  obtain ⟨m, wallet, account, hc, hg, hu, hr⟩ :=
    pathAccountsCreate_returns lib bip req data resp written h
  have hget : written.Get (QualifiedPath ("accounts/" ++ Get data.name "")) =
      .ok (some (.account { Index := Get data.index 0, Mnemonic := m })) :=
    Get_Put_same req.Storage written _ _ hu
  refine ⟨m, wallet, account, hc, ?_, hg, hr, hget, ?_⟩
  · intro hne
    simp only [chosenMnemonic, hne, if_false, Except.ok.injEq] at hc
    exact hc.symm
  · intro readReq readData hs hn
    have hread : readAccount readReq (Get readData.name "") =
        .ok (some { Index := Get data.index 0, Mnemonic := m }) := by
      simp only [readAccount, hs, hn, hget, StorageEntry.DecodeAccountJSON]
    simp only [pathAccountsRead, hread, hg, hr]

/-- C13, at requests: `bob` is created on the store that holds `alice`, with a
supplied mnemonic and index 3; the store then holds his record, and the read of
`bob` on it returns the address the create returned.  The same with no mnemonic
supplied. -/
theorem create_then_read_witness :
    pathAccountsCreate sampleLib sampleBip39 (requestOn exampleStorage "accounts/bob")
        createBob =
      (.ok (some (.address "0x646666746b77772a6c6e6e7c737f7f3274767684")),
        exampleStorageWithBob) ∧
    exampleStorageWithBob.Get "accounts/bob" =
      .ok (some (.account { Index := 3, Mnemonic := exampleMnemonic })) ∧
    pathAccountsRead sampleLib (requestOn exampleStorageWithBob "accounts/bob")
        (nameOnly "bob") =
      .ok (some (.address "0x646666746b77772a6c6e6e7c737f7f3274767684")) ∧
    pathAccountsRead sampleLib
        (requestOn
          (pathAccountsCreate sampleLib sampleBip39 (requestOn exampleStorage "accounts/bob")
            (nameOnly "bob")).2 "accounts/bob")
        (nameOnly "bob") =
      (pathAccountsCreate sampleLib sampleBip39 (requestOn exampleStorage "accounts/bob")
        (nameOnly "bob")).1 := by
  obtain ⟨m, wallet, account, _, _, _, _, _, hread⟩ :=
    create_then_read sampleLib sampleBip39 (requestOn exampleStorage "accounts/bob") createBob
      (some (.address "0x646666746b77772a6c6e6e7c737f7f3274767684")) exampleStorageWithBob rfl
  exact ⟨rfl, rfl, hread (requestOn exampleStorageWithBob "accounts/bob") (nameOnly "bob")
    rfl rfl, rfl⟩

/-! ## C14 -/

theorem readAccount_ok (req : Request) (name : String) :
    ∃ r, readAccount req name = .ok r := by
  simp only [readAccount, Storage.Get]
  cases (List.find? (fun kv => decide (kv.1 = QualifiedPath ("accounts/" ++ name)))
    req.Storage.entries) with
  | none => exact ⟨_, rfl⟩
  | some kv => exact ⟨_, rfl⟩

theorem pathAccountsDelete_eq (req : Request) (data : FieldData) :
    pathAccountsDelete req data =
      (.ok none, { entries := req.Storage.entries.filter (fun kv => kv.1 ≠ req.Path) }) := by
  obtain ⟨r, hr⟩ := readAccount_ok req (Get data.name "")
  simp only [pathAccountsDelete, hr, Storage.Delete]

theorem pathChainsDelete_cases (req : Request) (data : FieldData) :
    (∃ err, pathChainsDelete req data = (.error err, req.Storage)) ∨
    pathChainsDelete req data =
      (.ok none, { entries := req.Storage.entries.filter (fun kv => kv.1 ≠ req.Path) }) := by
  cases hr : readChain req (Get data.name "") with
  | error err => exact Or.inl ⟨err, by simp only [pathChainsDelete, hr]⟩
  | ok c => exact Or.inr (by simp only [pathChainsDelete, hr, Storage.Delete])

/-- C14 (as amended). Deleting an account by name is idempotent:
`pathAccountsDelete` returns success whether or not a record exists, and a second
application returns success again and leaves the store the first one left.
Deleting a chain is idempotent on the store only: a second application of
`pathChainsDelete` leaves the store the first one left; where the record existed
under the path of the request the first application succeeds and the second
returns the error of `readChain`, and where no record exists the handler returns
that error and leaves the store unchanged. -/
theorem delete_twice (req : Request) (data : FieldData) :
    (pathAccountsDelete req data).1 = .ok none ∧
    pathAccountsDelete { req with Storage := (pathAccountsDelete req data).2 } data =
      (.ok none, (pathAccountsDelete req data).2) ∧
    (pathChainsDelete { req with Storage := (pathChainsDelete req data).2 } data).2 =
      (pathChainsDelete req data).2 ∧
    (req.Path = QualifiedPath ("chains/" ++ Get data.name "") →
      ∀ entry, req.Storage.Get req.Path = .ok (some entry) →
      (pathChainsDelete req data).1 = .ok none ∧
      pathChainsDelete { req with Storage := (pathChainsDelete req data).2 } data =
        (.error "the plugin has not been configured yet", (pathChainsDelete req data).2)) ∧
    (req.Storage.Get (QualifiedPath ("chains/" ++ Get data.name "")) = .ok none →
      pathChainsDelete req data =
        (.error "the plugin has not been configured yet", req.Storage)) := by
  refine ⟨?_, ?_, ?_, ?_, ?_⟩
  · rw [pathAccountsDelete_eq]
  · rw [pathAccountsDelete_eq, pathAccountsDelete_eq]
    simp only [List.filter_filter, Bool.and_self]
  · rcases pathChainsDelete_cases req data with ⟨err, h1⟩ | h1
    · have hreq : ({ req with Storage := (pathChainsDelete req data).2 } : Request) = req := by
        rw [h1]
      rw [hreq]
    · rcases pathChainsDelete_cases { req with Storage := (pathChainsDelete req data).2 } data
        with ⟨err, h2⟩ | h2
      · rw [h2]
      · rw [h2, h1]
        simp only [List.filter_filter, Bool.and_self]
  · intro hp entry hget
    have hget2 : req.Storage.Get (QualifiedPath ("chains/" ++ Get data.name "")) =
        .ok (some entry) := by rw [← hp]; exact hget
    have hr : ∃ c, readChain req (Get data.name "") = .ok c := by
      simp only [readChain, hget2]
      cases entry with
      | chain c => exact ⟨_, rfl⟩
      | account a => exact ⟨_, rfl⟩
    obtain ⟨c, hc⟩ := hr
    have h1 : pathChainsDelete req data =
        (.ok none, { entries := req.Storage.entries.filter (fun kv => kv.1 ≠ req.Path) }) := by
      simp only [pathChainsDelete, hc, Storage.Delete]
    rw [h1]
    refine ⟨rfl, ?_⟩
    have hgone : (Storage.mk (req.Storage.entries.filter (fun kv => kv.1 ≠ req.Path))).Get
        (QualifiedPath ("chains/" ++ Get data.name "")) = .ok none := by
      rw [← hp]
      exact Get_Delete_same req.Storage _ req.Path rfl
    simp only [pathChainsDelete, readChain, hgone]
  · intro hnone
    simp only [pathChainsDelete, readChain, hnone]

/-- C14, at requests: deleting `alice` twice, and deleting the absent `bob`,
succeed and the second delete of `alice` changes nothing. -/
theorem delete_twice_witness :
    pathAccountsDelete (requestOn exampleStorageNoChain "accounts/alice") (nameOnly "alice") =
      (.ok none, { entries := [] }) ∧
    pathAccountsDelete (requestOn { entries := [] } "accounts/alice") (nameOnly "alice") =
      (.ok none, { entries := [] }) ∧
    (pathAccountsDelete (requestOn exampleStorage "accounts/bob") (nameOnly "bob")).1 =
      .ok none :=
  ⟨rfl, rfl, (delete_twice (requestOn exampleStorage "accounts/bob") (nameOnly "bob")).1⟩

/-- C14, the claim as stated fails. Deleting the chain `main` succeeds the first
time and removes the record; applied again to the store that is left, the
delete returns the error `the plugin has not been configured yet`, not
success. -/
theorem chain_delete_twice_counterexample :
    pathChainsDelete (requestOn exampleStorage "chains/main") (nameOnly "main") =
      (.ok none, exampleStorageNoChain) ∧
    pathChainsDelete (requestOn exampleStorageNoChain "chains/main") (nameOnly "main") =
      (.error "the plugin has not been configured yet", exampleStorageNoChain) :=
  ⟨rfl, rfl⟩

/-! ## C15 -/

theorem uint64OfInt64_negative (n : Int) (hlo : -9223372036854775808 ≤ n) (hneg : n < 0) :
    (uint64OfInt64 n : Int) = 18446744073709551616 + n := by
  unfold uint64OfInt64
  have hmod : n % 18446744073709551616 = n + 18446744073709551616 := by
    rw [← Int.add_emod_self]
    exact Int.emod_eq_of_lt (by omega) (by omega)
  rw [hmod, Int.toNat_of_nonneg (by omega)]
  omega

theorem uint64OfInt64_nonnegative (n : Int) (hnn : 0 ≤ n) (hhi : n < 9223372036854775808) :
    (uint64OfInt64 n : Int) = n := by
  unfold uint64OfInt64
  rw [Int.emod_eq_of_lt hnn (by omega), Int.toNat_of_nonneg hnn]

/-- C15. A supplied nonce is never what a builder rejects: with `nonce` supplied
as the signed 64-bit number `n`, the nonce check passes, any error a builder
returns is the error of another field, and when the other checks pass the
builder returns a transaction.  The transaction's nonce is `n` modulo 2^64: `n`
itself when `n` is not negative, and 2^64 + `n` when `n` is negative. -/
theorem nonce_is_converted_not_rejected (lib : Lib) (data : FieldData) (n : Int)
    (hn : data.nonce = some n) :
    checkNonce data = none ∧
    (∀ tx, getTransactionData lib data = .ok tx →
      tx.Nonce = (n % 18446744073709551616).toNat) ∧
    (∀ tx, getEIP1559TransactionData lib data = .ok tx →
      tx.Nonce = (n % 18446744073709551616).toNat) ∧
    (∀ e, getTransactionData lib data = .error e →
      firstFailure [checkData lib data, checkChainId data, checkValue lib data,
        checkGasLimit data, checkGasPrice data, checkTo data] = some e) ∧
    (∀ e, getEIP1559TransactionData lib data = .error e →
      firstFailure [checkData lib data, checkValue lib data, checkGasLimit data,
        checkTip data, checkFeeCap data, checkTo data] = some e) ∧
    (checkData lib data = none → checkChainId data = none → checkValue lib data = none →
      checkGasLimit data = none → checkGasPrice data = none → checkTo data = none →
      ∃ tx, getTransactionData lib data = .ok tx ∧
        tx.Nonce = (n % 18446744073709551616).toNat) ∧
    (checkData lib data = none → checkValue lib data = none → checkGasLimit data = none →
      checkTip data = none → checkFeeCap data = none → checkTo data = none →
      ∃ tx, getEIP1559TransactionData lib data = .ok tx ∧
        tx.Nonce = (n % 18446744073709551616).toNat) ∧
    (-9223372036854775808 ≤ n → n < 0 →
      (((n % 18446744073709551616).toNat : Nat) : Int) = 18446744073709551616 + n) ∧
    (0 ≤ n → n < 9223372036854775808 →
      (((n % 18446744073709551616).toNat : Nat) : Int) = n) := by
  have hc : checkNonce data = none := by simp [checkNonce, hn]
  have hl : (legacyTxOf lib data).Nonce = (n % 18446744073709551616).toNat := by
    simp [legacyTxOf, NewTx, LegacyTx.copy, Transaction.Nonce, uint64OfInt64, Get, hn]
  have hd : (dynamicFeeTxOf lib data).Nonce = (n % 18446744073709551616).toNat := by
    simp [dynamicFeeTxOf, NewTx, DynamicFeeTx.copy, Transaction.Nonce, uint64OfInt64, Get, hn]
  have hfl : firstFailure (legacyChecks lib data) =
      firstFailure [checkData lib data, checkChainId data, checkValue lib data,
        checkGasLimit data, checkGasPrice data, checkTo data] := by
    cases h1 : checkData lib data <;> cases h2 : checkChainId data <;>
      cases h3 : checkValue lib data <;> simp [legacyChecks, firstFailure, h1, h2, h3, hc]
  have hfd : firstFailure (dynamicFeeChecks lib data) =
      firstFailure [checkData lib data, checkValue lib data, checkGasLimit data,
        checkTip data, checkFeeCap data, checkTo data] := by
    cases h1 : checkData lib data <;> cases h3 : checkValue lib data <;>
      simp [dynamicFeeChecks, firstFailure, h1, h3, hc]
  refine ⟨hc, ?_, ?_, ?_, ?_, ?_, ?_, ?_, ?_⟩
  · intro tx h
    rw [getTransactionData_eq] at h
    cases hf : firstFailure (legacyChecks lib data) with
    | some e => rw [hf] at h; cases h
    | none => rw [hf] at h; rw [← Except.ok.inj h]; exact hl
  · intro tx h
    rw [getEIP1559TransactionData_eq] at h
    cases hf : firstFailure (dynamicFeeChecks lib data) with
    | some e => rw [hf] at h; cases h
    | none => rw [hf] at h; rw [← Except.ok.inj h]; exact hd
  · intro e h
    rw [getTransactionData_eq] at h
    rw [← hfl]
    cases hf : firstFailure (legacyChecks lib data) with
    | some e' => rw [hf] at h; rw [Except.error.inj h]
    | none => rw [hf] at h; cases h
  · intro e h
    rw [getEIP1559TransactionData_eq] at h
    rw [← hfd]
    cases hf : firstFailure (dynamicFeeChecks lib data) with
    | some e' => rw [hf] at h; rw [Except.error.inj h]
    | none => rw [hf] at h; cases h
  · intro h1 h2 h3 h5 h6 h7
    refine ⟨legacyTxOf lib data, ?_, hl⟩
    rw [getTransactionData_eq, hfl]
    simp [firstFailure, h1, h2, h3, h5, h6, h7]
  · intro h1 h3 h4 h5 h6 h7
    refine ⟨dynamicFeeTxOf lib data, ?_, hd⟩
    rw [getEIP1559TransactionData_eq, hfd]
    simp [firstFailure, h1, h3, h4, h5, h6, h7]
  · intro hlo hneg
    exact uint64OfInt64_negative n hlo hneg
  · intro hnn hhi
    exact uint64OfInt64_nonnegative n hnn hhi

/-- C15, at requests: the complete legacy and dynamic-fee requests with
`nonce` -1 are built into transactions of nonce 18446744073709551615. -/
theorem nonce_is_converted_not_rejected_witness :
    (∃ tx, getTransactionData sampleLib { legacyBag with nonce := some (-1) } = .ok tx ∧
      tx.Nonce = 18446744073709551615) ∧
    (∃ tx, getEIP1559TransactionData sampleLib { dynamicFeeBag with nonce := some (-1) } =
        .ok tx ∧
      tx.Nonce = 18446744073709551615) :=
  ⟨(nonce_is_converted_not_rejected sampleLib { legacyBag with nonce := some (-1) } (-1)
      rfl).2.2.2.2.2.1 rfl rfl rfl rfl rfl rfl,
    (nonce_is_converted_not_rejected sampleLib { dynamicFeeBag with nonce := some (-1) } (-1)
      rfl).2.2.2.2.2.2.1 rfl rfl rfl rfl rfl rfl⟩

end VaultEthereum
